import Mathlib

/-!
Verification of the receiver-side RTP source state machine
(`media/libstagefright/rtsp/ARTPSource.cpp`).

The C++ file is embedded shallowly: every member function that the
properties below mention is translated into a Lean function on an explicit
state record.  Machine integers are modelled as `Nat` (unsigned) or `Int`
(signed) with the wrap-arounds of the 32-bit arithmetic written as explicit
`% 2 ^ 32`; the C bitwise operators `|`, `&`, `<<`, `>>` are kept as the
corresponding `Nat` bitwise operations.  `ALooper::GetNowUs()` (the
monotonic microsecond clock) is passed to each operation as an explicit
`nowUs` argument.  Field types follow `ARTPSource.h` (companion header of
the translation unit): sequence-number fields are `uint32_t` (here `Nat`),
the buffer counters are signed (here `Int`), timestamps are `int64_t`
(here `Int`), `mLastNTPTime` is `uint64_t`.
-/

namespace ARTPSpec

/-- One network buffer (`sp<ABuffer>`): `payload` abstracts the raw bytes,
`rtpTime` is the value of the `"rtp-time"` meta entry, and `seq` is the value
carried by `int32Data()` / `setInt32Data()` — the widened 16-bit wire sequence
number when the packet arrives, replaced by the resolved 32-bit extended
sequence number inside `queuePacket`. -/
structure Buffer where
  payload : ℕ
  rtpTime : ℤ
  seq : ℕ
  deriving DecidableEq

/-- The state of one `ARTPSource` instance (the member fields of the class
that the translated member functions read or write).  `hasAssembler` models
`mAssembler != NULL` (the assembler itself is an external collaborator; its
queue-draining callback `onPacketReceived` is outside this translation unit
and never touches the fields below).  `mTargetBitrate` is the
`mQualManager.mTargetBitrate` field read by `addTMMBR`. -/
structure ARTPSource where
  mFirstRtpTime : ℤ
  mFirstSysTime : ℤ
  mClockRate : ℕ
  mID : ℕ
  mHighestSeqNumber : ℕ
  mPrevExpected : ℕ
  mBaseSeqNumber : ℕ
  mNumBuffersReceived : ℤ
  mPrevNumBuffersReceived : ℤ
  mLastNTPTime : ℕ
  mLastNTPTimeUpdateUs : ℤ
  mIssueFIRRequests : Bool
  mLastFIRRequestUs : ℤ
  mNextFIRSeqNo : ℕ
  mTargetBitrate : ℤ
  hasAssembler : Bool
  mQueue : List Buffer
  deriving DecidableEq

/-- Modelled from the spec: `AQualManager::setTargetBitrate` is not part of
this translation unit (only its call site in `addReceiverReport` is).  Per
spec section 4.4 the update curve that maps the previous target bitrate and
the just-computed loss fraction to the new target bitrate is an external
tunable, so it is kept abstract here: `update old fraction` is the new value
of `mTargetBitrate`. -/
structure QualCurve where
  update : ℤ → ℕ → ℤ

/-- The state right after the `ARTPSource` constructor: every counter zero,
`mLastFIRRequestUs = -1` ("never sent"), `mNextFIRSeqNo` randomly seeded
(the seed is an explicit argument, reduced to the `uint8_t` range),
`mIssueFIRRequests` set by the codec dispatch, `hasAssembler` the result of
the dispatch plus `initCheck`. -/
def ARTPSource.construct (ssrc : ℕ) (issueFIR : Bool) (hasAsm : Bool)
    (firSeed : ℕ) : ARTPSource :=
  { mFirstRtpTime := 0
    mFirstSysTime := 0
    mClockRate := 0
    mID := ssrc
    mHighestSeqNumber := 0
    mPrevExpected := 0
    mBaseSeqNumber := 0
    mNumBuffersReceived := 0
    mPrevNumBuffersReceived := 0
    mLastNTPTime := 0
    mLastNTPTimeUpdateUs := 0
    mIssueFIRRequests := issueFIR
    mLastFIRRequestUs := -1
    mNextFIRSeqNo := firSeed % 256
    mTargetBitrate := 0
    hasAssembler := hasAsm
    mQueue := [] }

/-- `AbsDiff` (ARTPSource.cpp lines 99-101). -/
def AbsDiff (seq1 seq2 : ℕ) : ℕ := if seq1 > seq2 then seq1 - seq2 else seq2 - seq1

/-- The three-candidate selection of `queuePacket` (lines 141-169): given
`mHighestSeqNumber` and the 16-bit wire value, compute the three 32-bit
candidates (same-high-word, wrap-forward, wrap-backward — the latter two with
the overflow-free formulations of the source, whose `uint32_t` `<< 16`
results wrap modulo `2 ^ 32`) and pick by smallest absolute difference with
the source's exact tie-break structure. -/
def resolveSeq (mHighestSeqNumber seqNum : ℕ) : ℕ :=
  let seq1 := seqNum ||| (mHighestSeqNumber &&& 0xffff0000)
  let seq2 := seqNum ||| ((((mHighestSeqNumber >>> 16) + 1) <<< 16) % 4294967296)
  let seq3 := seqNum ||| (((((mHighestSeqNumber >>> 16) ||| 0x10000) - 1) <<< 16) % 4294967296)
  let diff1 := AbsDiff seq1 mHighestSeqNumber
  let diff2 := AbsDiff seq2 mHighestSeqNumber
  let diff3 := AbsDiff seq3 mHighestSeqNumber
  if diff1 < diff2 then
    if diff1 < diff3 then seq1 else seq3
  else if diff2 < diff3 then seq2
  else seq3

/-- The insertion scan of `queuePacket` (lines 177-189): walk to the first
entry whose stored extended sequence number is not smaller than the new one;
an equal entry means the packet is a duplicate (queue unchanged, `false`),
otherwise insert in front of that entry (`true`). -/
def insertQueue (q : List Buffer) (b : Buffer) : List Buffer × Bool :=
  match q with
  | [] => ([b], true)
  | x :: xs =>
    if x.seq < b.seq then
      let r := insertQueue xs b
      (x :: r.1, r.2)
    else if x.seq = b.seq then (x :: xs, false)
    else (b :: x :: xs, true)

/-- `ARTPSource::queuePacket` (lines 120-190).  Returns the new state, the
C++ return value, and the extended sequence number the buffer carries after
the call (`int32Data()`: the unchanged wire value for the very first packet,
the resolved value otherwise).  Note that `mNumBuffersReceived++` increments
in both branches and that the first-packet branch is taken only when the old
count is zero AND `mFirstSysTime == 0`. -/
def queuePacket (s : ARTPSource) (nowUs : ℤ) (buffer : Buffer) :
    ARTPSource × Bool × ℕ :=
  let seqNum := buffer.seq
  let s0 := { s with mNumBuffersReceived := s.mNumBuffersReceived + 1 }
  if s.mNumBuffersReceived = 0 ∧ s.mFirstSysTime = 0 then
    ({ s0 with
        mFirstSysTime := nowUs
        mHighestSeqNumber := seqNum
        mBaseSeqNumber := seqNum
        mFirstRtpTime := buffer.rtpTime
        mClockRate := 90000
        mQueue := s.mQueue ++ [buffer] }, true, seqNum)
  else
    let seqNum' := resolveSeq s.mHighestSeqNumber seqNum
    let s1 :=
      if seqNum' > s.mHighestSeqNumber then
        { s0 with mHighestSeqNumber := seqNum' }
      else s0
    let buffer' := { buffer with seq := seqNum' }
    let r := insertQueue s.mQueue buffer'
    ({ s1 with mQueue := r.1 }, r.2, seqNum')

/-- `ARTPSource::processRTPPacket` (lines 103-107): `queuePacket` runs only
when an assembler is attached (`&&` short-circuit); the assembler's
`onPacketReceived` drain is an external call that does not touch this state.
Returns `none` when no assembler is attached, otherwise the `queuePacket`
result (accepted flag, assigned extended sequence number). -/
def processRTPPacket (s : ARTPSource) (nowUs : ℤ) (buffer : Buffer) :
    ARTPSource × Option (Bool × ℕ) :=
  if s.hasAssembler then
    let r := queuePacket s nowUs buffer
    (r.1, some (r.2.1, r.2.2))
  else (s, none)

/-- `ARTPSource::timeUpdate` (lines 109-118); the posted notification is
external and carries no state. -/
def timeUpdate (s : ARTPSource) (rtpTime ntpTime : ℕ) (nowUs : ℤ) : ARTPSource :=
  { s with mLastNTPTime := ntpTime, mLastNTPTimeUpdateUs := nowUs }

/-- `ARTPSource::noticeAbandonBuffer` (lines 385-387). -/
def noticeAbandonBuffer (s : ARTPSource) (cnt : ℤ) : ARTPSource :=
  { s with mNumBuffersReceived := s.mNumBuffersReceived - cnt }

/-- `ARTPSource::isNeedToReport` (lines 380-383). -/
def isNeedToReport (s : ARTPSource) : Bool :=
  decide (0 < s.mNumBuffersReceived - s.mPrevNumBuffersReceived)

/-- The four big-endian byte stores of a 32-bit word
(`v >> 24`, `(v >> 16) & 0xff`, `(v >> 8) & 0xff`, `v & 0xff`, each held in a
`uint8_t`; the first store is `% 256` by the `uint8_t` conversion). -/
def be32 (v : ℕ) : List ℕ :=
  [(v >>> 24) % 256, (v >>> 16) &&& 0xff, (v >>> 8) &&& 0xff, v &&& 0xff]

/-- One byte of a signed value: arithmetic right shift by `k` bits
(floor division, which is what `>>` does on a negative `int32_t`) followed by
the `uint8_t` conversion (`& 0xff` / truncation, i.e. Euclidean `% 256`). -/
def sbyte (c : ℤ) (k : ℕ) : ℕ := ((c / ((2 : ℤ) ^ k)) % 256).toNat

/-- The `(int32_t)` cast applied to `expected` in `addReceiverReport`: a
two's-complement reinterpretation of the low 32 bits. -/
def i32cast (v : ℕ) : ℤ := ((v : ℤ) + 2 ^ 31) % 2 ^ 32 - 2 ^ 31

/-- `ARTPSource::addFIR` (lines 198-246).  `kSourceID` is the file-static
reporter id (`setSelfID` target).  Result: new state and the appended bytes
(empty when nothing is appended).  Note the source order: the rate-limit
timestamp `mLastFIRRequestUs` is written BEFORE the capacity check, so a
capacity-failing call still updates it. -/
def addFIR (kSourceID : ℕ) (s : ARTPSource) (nowUs : ℤ)
    (bufSize bufCapacity : ℕ) : ARTPSource × List ℕ :=
  if ¬ s.mIssueFIRRequests then (s, [])
  else if 0 ≤ s.mLastFIRRequestUs ∧ nowUs < s.mLastFIRRequestUs + 5000000 then (s, [])
  else
    let s1 := { s with mLastFIRRequestUs := nowUs }
    if bufSize + 20 > bufCapacity then (s1, [])
    else
      ({ s1 with mNextFIRSeqNo := (s.mNextFIRSeqNo + 1) % 256 },
       [0x84, 206, 0, 4] ++ be32 kSourceID ++ [0, 0, 0, 0] ++ be32 s.mID ++
         [s.mNextFIRSeqNo % 256, 0, 0, 0])

/-- `ARTPSource::addReceiverReport` (lines 248-326).  All the `uint32_t`
arithmetic (`expected`, `expected - mPrevExpected`) wraps modulo `2 ^ 32`;
the `int64_t` interval quantities are exact.  The `fraction` variable is a
`uint8_t`, hence the `% 256`; inside its guard both division operands are
positive, where C truncating division coincides with `Nat` division.
`dlsr` stands for the value of the floating-point expression
`(GetNowUs() - mLastNTPTimeUpdateUs) * 65536.0 / 1E6` (floating point is not
modelled; no property below depends on it), truncated to `uint32_t`. -/
def addReceiverReport (kSourceID : ℕ) (qual : QualCurve) (s : ARTPSource)
    (dlsr : ℕ) (bufSize bufCapacity : ℕ) : ARTPSource × List ℕ :=
  if bufSize + 32 > bufCapacity then (s, [])
  else
    let expected : ℕ :=
      (((s.mHighestSeqNumber : ℤ) - (s.mBaseSeqNumber : ℤ) + 1) % 2 ^ 32).toNat
    let intervalExpected : ℤ := ((expected : ℤ) - (s.mPrevExpected : ℤ)) % 2 ^ 32
    let intervalReceived : ℤ := s.mNumBuffersReceived - s.mPrevNumBuffersReceived
    let intervalPacketLost : ℤ := intervalExpected - intervalReceived
    let fraction : ℕ :=
      if 0 < intervalExpected ∧ 0 < intervalPacketLost then
        ((intervalPacketLost.toNat <<< 8) / intervalExpected.toNat) % 256
      else 0
    let s1 := { s with
        mTargetBitrate := qual.update s.mTargetBitrate fraction
        mPrevExpected := expected
        mPrevNumBuffersReceived := s.mNumBuffersReceived }
    let cumulativePacketLost : ℤ := i32cast expected - s.mNumBuffersReceived
    let LSR : ℕ :=
      if s.mLastNTPTime ≠ 0 then (s.mLastNTPTime >>> 16) &&& 0xffffffff else 0
    let DLSR : ℕ := if s.mLastNTPTime ≠ 0 then dlsr % 2 ^ 32 else 0
    (s1,
     [0x81, 201, 0, 7] ++ be32 kSourceID ++ be32 s.mID ++
       [fraction, sbyte cumulativePacketLost 16, sbyte cumulativePacketLost 8,
        sbyte cumulativePacketLost 0] ++
       be32 s.mHighestSeqNumber ++ [0, 0, 0, 0] ++ be32 LSR ++ be32 DLSR)

/-- The `for (exp = 4; exp < 32; exp++)` scan of `addTMMBR`, written with an
explicit iteration budget of `32 - 4 = 28` steps; `e` is the current loop
variable, and the loop falls through with `exp = 32` when no bit is set. -/
def tmmbrExpAux (tb : ℕ) : ℕ → ℕ → ℕ
  | 0, e => e
  | fuel + 1, e => if (tb >>> e) &&& 1 ≠ 0 then e else tmmbrExpAux tb fuel (e + 1)

/-- The exponent chosen by `addTMMBR` (lines 359-361). -/
def tmmbrExp (tb : ℕ) : ℕ := tmmbrExpAux tb 28 4

/-- `ARTPSource::addTMMBR` (lines 328-370).  The capacity check requires 32
spare bytes (`buffer->size() + 32 > buffer->capacity()`, copied from the RR
builder) although only 20 bytes are written.  The function mutates no state.
Each of the three packed bytes is below 256, so the `uint8_t` stores are
exact.  (For `0 < mTargetBitrate < 16` the C loop falls through with
`exp = 32` and the subsequent `>> 32` of an `int32_t` is undefined behaviour;
the properties below are stated away from that region.) -/
def addTMMBR (kSourceID : ℕ) (s : ARTPSource) (bufSize bufCapacity : ℕ) :
    ARTPSource × List ℕ :=
  if bufSize + 32 > bufCapacity then (s, [])
  else if s.mTargetBitrate ≤ 0 then (s, [])
  else
    let targetBitrate : ℕ := s.mTargetBitrate.toNat
    let exp := tmmbrExp targetBitrate
    let mantissa := targetBitrate >>> exp
    (s,
     [0x83, 205, 0, 4] ++ be32 kSourceID ++ [0, 0, 0, 0] ++ be32 s.mID ++
       [((exp <<< 2) &&& 0xfc) ||| ((mantissa &&& 0x18000) >>> 15),
        (mantissa &&& 0x07f80) >>> 7,
        (mantissa &&& 0x0007f) <<< 1,
        40])

/-- The extended sequence numbers currently stored in the reorder queue, in
queue order. -/
def queueKeys (s : ARTPSource) : List ℕ := s.mQueue.map Buffer.seq

/-- One externally-invokable operation on an `ARTPSource`, with the clock
reading and the output-buffer geometry of the call as payload. -/
inductive Op
  | packet (buffer : Buffer) (nowUs : ℤ)
  | abandon (cnt : ℤ)
  | fir (nowUs : ℤ) (bufSize bufCapacity : ℕ)
  | report (dlsr : ℕ) (bufSize bufCapacity : ℕ)
  | tmmbr (bufSize bufCapacity : ℕ)
  | timeUpd (rtpTime ntpTime : ℕ) (nowUs : ℤ)
  deriving DecidableEq

/-- Effect of one operation on the state (the appended report bytes, if any,
are discarded here). -/
def Op.step (kSourceID : ℕ) (qual : QualCurve) (s : ARTPSource) : Op → ARTPSource
  | .packet b t => (processRTPPacket s t b).1
  | .abandon c => noticeAbandonBuffer s c
  | .fir t sz cap => (addFIR kSourceID s t sz cap).1
  | .report d sz cap => (addReceiverReport kSourceID qual s d sz cap).1
  | .tmmbr sz cap => (addTMMBR kSourceID s sz cap).1
  | .timeUpd r n t => timeUpdate s r n t

/-- Run a sequence of operations. -/
def runOps (kSourceID : ℕ) (qual : QualCurve) (s : ARTPSource)
    (ops : List Op) : ARTPSource :=
  ops.foldl (Op.step kSourceID qual) s

/-- Clock readings are plausible: `ALooper::GetNowUs()` is a microsecond
monotonic clock, never zero by the time any packet can arrive and never
negative. -/
def Op.timeOK : Op → Bool
  | .packet _ t => decide (0 < t)
  | .fir t _ _ => decide (0 ≤ t)
  | .timeUpd _ _ t => decide (0 ≤ t)
  | _ => true

/-- `true` iff no `abandon` operation occurs before the first `packet`
operation of the list. -/
def noEarlyAbandon : List Op → Bool
  | [] => true
  | .packet _ _ :: _ => true
  | .abandon _ :: _ => false
  | _ :: rest => noEarlyAbandon rest

/-- Feed a list of wire sequence numbers through `processRTPPacket` (one
packet per value, payload and rtp-time immaterial), collecting the extended
sequence number assigned to each packet (`0` if the packet was dropped
because no assembler is attached). -/
def feed (nowUs : ℤ) (s : ARTPSource) : List ℕ → ARTPSource × List ℕ
  | [] => (s, [])
  | w :: ws =>
    let r := processRTPPacket s nowUs { payload := 0, rtpTime := 0, seq := w }
    let rest := feed nowUs r.1 ws
    (rest.1, (r.2.map Prod.snd).getD 0 :: rest.2)

/-- Every arriving original value lies within `32768` of the running highest
original value — the per-packet consequence of "a genuine monotonic 32-bit
stream reordered within a window smaller than 32768" (each packet arrives
while the highest value seen so far is less than `32768` away from it). -/
def windowOK (m : ℕ) : List ℕ → Bool
  | [] => true
  | o :: os => decide (AbsDiff o m < 32768) && windowOK (max m o) os

/-- Run a list of raw `queuePacket` insertions (buffer, clock reading). -/
def runInsertions (s : ARTPSource) : List (Buffer × ℤ) → ARTPSource
  | [] => s
  | p :: ps => runInsertions (queuePacket s p.2 p.1).1 ps

/-- Run a list of `processRTPPacket` calls (buffer, clock reading). -/
def runPackets (s : ARTPSource) : List (Buffer × ℤ) → ARTPSource
  | [] => s
  | p :: ps => runPackets (processRTPPacket s p.2 p.1).1 ps

/-- Run a list of `addFIR` calls (clock reading, buffer size, buffer
capacity), collecting the bytes each call appended. -/
def runFIR (kSourceID : ℕ) (s : ARTPSource) : List (ℤ × ℕ × ℕ) → List (List ℕ)
  | [] => []
  | c :: cs =>
    let r := addFIR kSourceID s c.1 c.2.1 c.2.2
    r.2 :: runFIR kSourceID r.1 cs

/-- Decoder for the fraction-lost byte of an encoded RR block. -/
def decodeFractionLost (bytes : List ℕ) : ℕ := bytes.getD 12 0

/-- Decoder for the 24-bit signed cumulative-lost field of an encoded RR
block. -/
def decodeCumulativeLost (bytes : List ℕ) : ℤ :=
  (((bytes.getD 13 0 * 2 ^ 16 + bytes.getD 14 0 * 2 ^ 8 + bytes.getD 15 0 : ℕ) : ℤ)
      + 2 ^ 23) % 2 ^ 24 - 2 ^ 23

/-- Decoder for the last-sender-report timestamp field (bytes 24-27) of an
encoded RR block. -/
def decodeLSR (bytes : List ℕ) : ℕ :=
  bytes.getD 24 0 * 2 ^ 24 + bytes.getD 25 0 * 2 ^ 16 +
    bytes.getD 26 0 * 2 ^ 8 + bytes.getD 27 0

/-- Decoder for the (exponent, mantissa) pair of an encoded TMMBR block. -/
def decodeTMMBR (bytes : List ℕ) : ℕ × ℕ :=
  let b16 := bytes.getD 16 0
  let b17 := bytes.getD 17 0
  let b18 := bytes.getD 18 0
  (b16 >>> 2, ((b16 &&& 0x3) <<< 15) ||| ((b17 <<< 7) ||| (b18 >>> 1)))

/-! Bridge lemmas: the `Nat` bitwise operators used by the embedding,
rewritten into `/`, `%`, `*`, `+` arithmetic so that `omega` can reason
about them. -/

lemma lor_mod_two_pow (p q n : ℕ) :
    (p ||| q) % 2 ^ n = (p % 2 ^ n) ||| (q % 2 ^ n) := by
  apply Nat.eq_of_testBit_eq
  intro i
  simp [Nat.testBit_mod_two_pow, Nat.testBit_lor, Bool.and_or_distrib_left]

lemma lor_shiftRight (p q n : ℕ) :
    (p ||| q) >>> n = (p >>> n) ||| (q >>> n) := by
  apply Nat.eq_of_testBit_eq
  intro i
  simp [Nat.testBit_shiftRight, Nat.testBit_lor]

/-- Bitwise-or of a low part (below `2 ^ n`) and a multiple of `2 ^ n` is
their sum. -/
lemma lor_mul_pow (a k n : ℕ) (ha : a < 2 ^ n) :
    a ||| k * 2 ^ n = k * 2 ^ n + a := by
  have hmod : (a ||| k * 2 ^ n) % 2 ^ n = a := by
    rw [lor_mod_two_pow, Nat.mul_mod_left, Nat.mod_eq_of_lt ha]
    simp
  have hdiv : (a ||| k * 2 ^ n) / 2 ^ n = k := by
    have h1 := lor_shiftRight a (k * 2 ^ n) n
    rw [Nat.shiftRight_eq_div_pow, Nat.shiftRight_eq_div_pow,
      Nat.shiftRight_eq_div_pow] at h1
    rw [h1, Nat.div_eq_of_lt ha, Nat.mul_div_cancel _ (Nat.pos_pow_of_pos n (by norm_num))]
    simp
  have h2 := Nat.div_add_mod (a ||| k * 2 ^ n) (2 ^ n)
  rw [hdiv, hmod] at h2
  rw [← h2]
  ring

/-- Masking with a contiguous run of `a` one-bits starting at bit `b`
extracts the corresponding digits: `x & ((2^a - 1) << b) = x / 2^b % 2^a * 2^b`. -/
lemma and_mask (x a b : ℕ) :
    x &&& ((2 ^ a - 1) <<< b) = x / 2 ^ b % 2 ^ a * 2 ^ b := by
  have hrhs : x / 2 ^ b % 2 ^ a * 2 ^ b = ((x >>> b) % 2 ^ a) <<< b := by
    rw [Nat.shiftLeft_eq, Nat.shiftRight_eq_div_pow]
  rw [hrhs]
  apply Nat.eq_of_testBit_eq
  intro i
  rw [Nat.testBit_land, Nat.testBit_shiftLeft, Nat.testBit_shiftLeft,
    Nat.testBit_two_pow_sub_one, Nat.testBit_mod_two_pow, Nat.testBit_shiftRight]
  rcases lt_or_ge i b with hi | hi
  · simp [show ¬ (i ≥ b) from by omega]
  · have hb : b + (i - b) = i := by omega
    by_cases ha : i - b < a <;>
      simp [show i ≥ b from hi, hb, ha]

/-- Special case of `and_mask`: masking with `2 ^ n - 1` is `% 2 ^ n`. -/
lemma and_ones (x n : ℕ) : x &&& (2 ^ n - 1) = x % 2 ^ n := by
  have h := and_mask x n 0
  simpa using h

/-- A `uint32_t` left shift by 16 (`% 2 ^ 32`) keeps the low 16 bits of the
shifted word. -/
lemma shl16_mod (x : ℕ) : (x <<< 16) % 4294967296 = x % 2 ^ 16 * 2 ^ 16 := by
  rw [Nat.shiftLeft_eq]
  have h : (4294967296 : ℕ) = 2 ^ 16 * 2 ^ 16 := by norm_num
  rw [h, Nat.mul_mod_mul_right]

lemma and_hiword (h : ℕ) (hh : h < 2 ^ 32) :
    h &&& 0xffff0000 = h / 2 ^ 16 * 2 ^ 16 := by
  have hmask : (0xffff0000 : ℕ) = (2 ^ 16 - 1) <<< 16 := by
    norm_num [Nat.shiftLeft_eq]
  rw [hmask, and_mask]
  have : h / 2 ^ 16 < 2 ^ 16 := by omega
  rw [Nat.mod_eq_of_lt this]

lemma hiword_lor_guard (h : ℕ) (hh : h < 2 ^ 32) :
    (h >>> 16) ||| 0x10000 = 2 ^ 16 + h / 2 ^ 16 := by
  have h1 : (0x10000 : ℕ) = 1 * 2 ^ 16 := by norm_num
  rw [Nat.shiftRight_eq_div_pow, h1,
    lor_mul_pow _ _ _ (by omega : h / 2 ^ 16 < 2 ^ 16)]
  omega

/-! The Sequence Reconstructor: `resolveSeq` recovers the exact original
32-bit value whenever the arriving value is within `32768` of the current
highest. -/

/-- Arithmetic characterization of the three candidates of `resolveSeq`. -/
lemma resolveSeq_correct (h s : ℕ) (hh : h < 2 ^ 32) (hs : s < 2 ^ 32)
    (hw : AbsDiff s h < 32768) : resolveSeq h (s % 65536) = s := by
  have hw' : s % 65536 < 2 ^ 16 := by omega
  have e1 : (s % 65536) ||| (h &&& 0xffff0000)
      = h / 2 ^ 16 * 2 ^ 16 + s % 65536 := by
    rw [and_hiword h hh, lor_mul_pow _ _ _ hw']
  have e2 : (s % 65536) ||| ((((h >>> 16) + 1) <<< 16) % 4294967296)
      = (h / 2 ^ 16 + 1) % 2 ^ 16 * 2 ^ 16 + s % 65536 := by
    rw [shl16_mod, Nat.shiftRight_eq_div_pow, lor_mul_pow _ _ _ hw']
  have e3 : (s % 65536) ||| (((((h >>> 16) ||| 0x10000) - 1) <<< 16) % 4294967296)
      = (2 ^ 16 + h / 2 ^ 16 - 1) % 2 ^ 16 * 2 ^ 16 + s % 65536 := by
    rw [hiword_lor_guard h hh, shl16_mod, lor_mul_pow _ _ _ hw']
  simp only [resolveSeq, AbsDiff, e1, e2, e3] at *
  split_ifs at * <;> omega

/-- The wire value is recoverable from the resolved value: every candidate
agrees with the wire value modulo `2 ^ 16`. -/
lemma resolveSeq_mod (h w : ℕ) (hh : h < 2 ^ 32) (hw : w < 65536) :
    resolveSeq h w % 65536 = w := by
  have hw' : w < 2 ^ 16 := by omega
  have e1 : w ||| (h &&& 0xffff0000) = h / 2 ^ 16 * 2 ^ 16 + w := by
    rw [and_hiword h hh, lor_mul_pow _ _ _ hw']
  have e2 : w ||| ((((h >>> 16) + 1) <<< 16) % 4294967296)
      = (h / 2 ^ 16 + 1) % 2 ^ 16 * 2 ^ 16 + w := by
    rw [shl16_mod, Nat.shiftRight_eq_div_pow, lor_mul_pow _ _ _ hw']
  have e3 : w ||| (((((h >>> 16) ||| 0x10000) - 1) <<< 16) % 4294967296)
      = (2 ^ 16 + h / 2 ^ 16 - 1) % 2 ^ 16 * 2 ^ 16 + w := by
    rw [hiword_lor_guard h hh, shl16_mod, lor_mul_pow _ _ _ hw']
  simp only [resolveSeq, AbsDiff, e1, e2, e3]
  split_ifs <;> omega

/-- The resolved value of a 16-bit wire value is a 32-bit value. -/
lemma resolveSeq_lt (h w : ℕ) (hh : h < 2 ^ 32) (hw : w < 65536) :
    resolveSeq h w < 2 ^ 32 := by
  have hw' : w < 2 ^ 16 := by omega
  have e1 : w ||| (h &&& 0xffff0000) = h / 2 ^ 16 * 2 ^ 16 + w := by
    rw [and_hiword h hh, lor_mul_pow _ _ _ hw']
  have e2 : w ||| ((((h >>> 16) + 1) <<< 16) % 4294967296)
      = (h / 2 ^ 16 + 1) % 2 ^ 16 * 2 ^ 16 + w := by
    rw [shl16_mod, Nat.shiftRight_eq_div_pow, lor_mul_pow _ _ _ hw']
  have e3 : w ||| (((((h >>> 16) ||| 0x10000) - 1) <<< 16) % 4294967296)
      = (2 ^ 16 + h / 2 ^ 16 - 1) % 2 ^ 16 * 2 ^ 16 + w := by
    rw [hiword_lor_guard h hh, shl16_mod, lor_mul_pow _ _ _ hw']
  simp only [resolveSeq, AbsDiff, e1, e2, e3]
  split_ifs <;> omega

/-- Equation for `queuePacket` when the first-packet branch is taken. -/
lemma queuePacket_first (s : ARTPSource) (nowUs : ℤ) (b : Buffer)
    (hg : s.mNumBuffersReceived = 0 ∧ s.mFirstSysTime = 0) :
    queuePacket s nowUs b =
      ({ s with
          mNumBuffersReceived := s.mNumBuffersReceived + 1
          mFirstSysTime := nowUs
          mHighestSeqNumber := b.seq
          mBaseSeqNumber := b.seq
          mFirstRtpTime := b.rtpTime
          mClockRate := 90000
          mQueue := s.mQueue ++ [b] }, true, b.seq) := by
  simp only [queuePacket]
  rw [if_pos hg]

/-- Equation for `queuePacket` when the first-packet branch is not taken:
the packet is resolved, the highest becomes the max of old highest and the
resolved value, and the resolved packet goes through the insertion scan. -/
lemma queuePacket_else (s : ARTPSource) (nowUs : ℤ) (b : Buffer)
    (hg : ¬ (s.mNumBuffersReceived = 0 ∧ s.mFirstSysTime = 0)) :
    queuePacket s nowUs b =
      ({ s with
          mNumBuffersReceived := s.mNumBuffersReceived + 1
          mHighestSeqNumber :=
            max s.mHighestSeqNumber (resolveSeq s.mHighestSeqNumber b.seq)
          mQueue :=
            (insertQueue s.mQueue { b with seq := resolveSeq s.mHighestSeqNumber b.seq }).1 },
       (insertQueue s.mQueue { b with seq := resolveSeq s.mHighestSeqNumber b.seq }).2,
       resolveSeq s.mHighestSeqNumber b.seq) := by
  simp only [queuePacket]
  rw [if_neg hg]
  rcases le_or_lt (resolveSeq s.mHighestSeqNumber b.seq) s.mHighestSeqNumber with hc | hc
  · rw [if_neg (by omega), Nat.max_eq_left hc]
  · rw [if_pos (by omega), Nat.max_eq_right (le_of_lt hc)]

/-- Feeding wire values through `processRTPPacket` on a source past its
first packet: every packet is assigned its exact original value, provided
each original is within the window of the running highest. -/
lemma feed_go (nowUs : ℤ) (os : List ℕ) : ∀ (s : ARTPSource),
    s.hasAssembler = true → s.mFirstSysTime ≠ 0 → s.mHighestSeqNumber < 2 ^ 32 →
    (∀ o ∈ os, o < 2 ^ 32) → windowOK s.mHighestSeqNumber os = true →
    (feed nowUs s (os.map (fun o => o % 65536))).2 = os := by
  induction os with
  | nil => intro s _ _ _ _ _; rfl
  | cons o os ih =>
    intro s hA hF hH hB hW
    have hWhead : AbsDiff o s.mHighestSeqNumber < 32768 := by
      simp only [windowOK, Bool.and_eq_true, decide_eq_true_eq] at hW
      exact hW.1
    have hWtail : windowOK (max s.mHighestSeqNumber o) os = true := by
      simp only [windowOK, Bool.and_eq_true, decide_eq_true_eq] at hW
      exact hW.2
    have hO : o < 2 ^ 32 := hB o (by simp)
    have hres : resolveSeq s.mHighestSeqNumber (o % 65536) = o :=
      resolveSeq_correct s.mHighestSeqNumber o hH hO hWhead
    have hg : ¬ (s.mNumBuffersReceived = 0 ∧ s.mFirstSysTime = 0) := fun hc => hF hc.2
    rw [List.map_cons]
    simp only [feed]
    unfold processRTPPacket
    rw [hA]
    simp only [eq_self_iff_true, if_true]
    rw [queuePacket_else _ _ _ hg]
    dsimp only
    rw [hres]
    congr 1
    exact ih _ hA hF (by show max s.mHighestSeqNumber o < 2 ^ 32; omega)
      (fun x hx => hB x (by simp [hx])) hWtail

/-- C1.  For every sequence of 16-bit wire sequence numbers consistent with
a genuine monotonic 32-bit stream reordered within a window smaller than
32768 — first original value below `2 ^ 16` (the extension convention starts
with a zero high word), all originals 32-bit, and every original within
`32768` of the running highest original (`windowOK`) — feeding the wire
values (`original % 2 ^ 16`) to `processRTPPacket` on a freshly constructed
source makes the three-candidate selection of `queuePacket` assign each
packet exactly its original 32-bit extended sequence number. -/
theorem c1_sequence_reconstructor_exact (ssrc firSeed : ℕ) (issueFIR : Bool)
    (nowUs : ℤ) (hnow : 0 < nowUs) (o0 : ℕ) (os : List ℕ)
    (h0 : o0 < 65536) (hB : ∀ o ∈ os, o < 2 ^ 32)
    (hW : windowOK o0 os = true) :
    (feed nowUs (ARTPSource.construct ssrc issueFIR true firSeed)
        ((o0 :: os).map (fun o => o % 65536))).2 = o0 :: os := by
  rw [List.map_cons, Nat.mod_eq_of_lt h0]
  simp only [feed]
  unfold processRTPPacket
  rw [show (ARTPSource.construct ssrc issueFIR true firSeed).hasAssembler = true from rfl]
  simp only [eq_self_iff_true, if_true]
  rw [queuePacket_first _ _ _ ⟨rfl, rfl⟩]
  dsimp only
  congr 1
  exact feed_go nowUs os _ rfl
    (by show nowUs ≠ 0; omega)
    (by show o0 < 2 ^ 32; omega)
    hB
    (by show windowOK o0 os = true; exact hW)

/-- Witness for C1: the stream 65530, 65537, 65534, 65600, 98000 (which
wraps the 16-bit wire word and arrives reordered within the window) is
recovered exactly. -/
theorem c1_witness :
    (feed 1 (ARTPSource.construct 77 true true 9)
        (([65530, 65537, 65534, 65600, 98000] : List ℕ).map (fun o => o % 65536))).2
      = [65530, 65537, 65534, 65600, 98000] :=
  c1_sequence_reconstructor_exact 77 9 true 1 (by norm_num) 65530
    [65537, 65534, 65600, 98000] (by norm_num) (by decide) (by decide)

/-! Reorder-queue invariants. -/

/-- Everything in the insertion result is either the new buffer or an old
entry. -/
lemma insertQueue_mem (q : List Buffer) (b : Buffer) :
    ∀ y ∈ (insertQueue q b).1, y = b ∨ y ∈ q := by
  induction q with
  | nil =>
    intro y hy
    simp only [insertQueue, List.mem_singleton] at hy
    exact Or.inl hy
  | cons x xs ih =>
    intro y hy
    simp only [insertQueue] at hy
    split_ifs at hy with h1 h2
    · rcases List.mem_cons.mp hy with h | h
      · exact Or.inr (by simp [h])
      · rcases ih y h with h' | h'
        · exact Or.inl h'
        · exact Or.inr (by simp [h'])
    · exact Or.inr hy
    · rcases List.mem_cons.mp hy with h | h
      · exact Or.inl h
      · exact Or.inr h

/-- The insertion scan preserves strict ascending order of the stored
extended sequence numbers. -/
lemma insertQueue_pairwise (q : List Buffer) (b : Buffer)
    (h : List.Pairwise (fun u v : Buffer => u.seq < v.seq) q) :
    List.Pairwise (fun u v : Buffer => u.seq < v.seq) (insertQueue q b).1 := by
  induction q with
  | nil => simp [insertQueue]
  | cons x xs ih =>
    rcases List.pairwise_cons.mp h with ⟨hx, hxs⟩
    simp only [insertQueue]
    split_ifs with h1 h2
    · refine List.pairwise_cons.mpr ⟨?_, ih hxs⟩
      intro y hy
      rcases insertQueue_mem xs b y hy with rfl | hmem
      · exact h1
      · exact hx y hmem
    · exact h
    · refine List.pairwise_cons.mpr ⟨?_, h⟩
      intro y hy
      rcases List.mem_cons.mp hy with rfl | hmem
      · omega
      · exact lt_trans (by omega) (hx y hmem)

/-- A duplicate key is detected by the scan on a sorted queue: nothing is
inserted and `false` is returned. -/
lemma insertQueue_dup (q : List Buffer) (b : Buffer)
    (hq : List.Pairwise (fun u v : Buffer => u.seq < v.seq) q)
    (hmem : b.seq ∈ q.map Buffer.seq) :
    insertQueue q b = (q, false) := by
  induction q with
  | nil => simp at hmem
  | cons x xs ih =>
    rcases List.pairwise_cons.mp hq with ⟨hx, hxs⟩
    simp only [List.map_cons, List.mem_cons] at hmem
    simp only [insertQueue]
    split_ifs with h1 h2
    · have hmem' : b.seq ∈ xs.map Buffer.seq := by
        rcases hmem with h | h
        · exact absurd h (by omega)
        · exact h
      rw [ih hxs hmem']
    · rfl
    · exfalso
      rcases hmem with h | h
      · omega
      · obtain ⟨y, hy, hys⟩ := List.mem_map.mp h
        have := hx y hy
        omega

/-- An accepted insertion grows the queue by exactly one entry. -/
lemma insertQueue_length (q : List Buffer) (b : Buffer) :
    (insertQueue q b).2 = true → (insertQueue q b).1.length = q.length + 1 := by
  induction q with
  | nil => intro _; rfl
  | cons x xs ih =>
    intro hacc
    simp only [insertQueue] at hacc ⊢
    split_ifs at hacc ⊢ with h1 h2
    · simp [ih hacc]
    · simp

/-- An accepted insertion really stores the new buffer. -/
lemma insertQueue_mem_self (q : List Buffer) (b : Buffer) :
    (insertQueue q b).2 = true → b ∈ (insertQueue q b).1 := by
  induction q with
  | nil => intro _; simp [insertQueue]
  | cons x xs ih =>
    intro hacc
    simp only [insertQueue] at hacc ⊢
    split_ifs at hacc ⊢ with h1 h2
    · simp [ih hacc]
    · simp

/-- Strictly ascending keys are duplicate-free. -/
lemma pairwise_keys_nodup {q : List Buffer}
    (hq : List.Pairwise (fun u v : Buffer => u.seq < v.seq) q) :
    (q.map Buffer.seq).Nodup :=
  (List.pairwise_map.mpr hq).imp (fun h => Nat.ne_of_lt h)

/-- Invariant carried by any run of insertions that starts from the
constructor state: the queue is strictly sorted, and as long as no packet
has been accepted as the first one (`mFirstSysTime = 0`) the queue is empty
and the arrival counter is zero. -/
def QInv (s : ARTPSource) : Prop :=
  List.Pairwise (fun u v : Buffer => u.seq < v.seq) s.mQueue ∧
  (s.mFirstSysTime = 0 → s.mQueue = [] ∧ s.mNumBuffersReceived = 0)

lemma queuePacket_QInv (s : ARTPSource) (t : ℤ) (b : Buffer) (ht : 0 < t)
    (h : QInv s) : QInv (queuePacket s t b).1 := by
  obtain ⟨hq, hz⟩ := h
  by_cases hg : s.mNumBuffersReceived = 0 ∧ s.mFirstSysTime = 0
  · rw [queuePacket_first _ _ _ hg]
    refine ⟨?_, ?_⟩
    · show List.Pairwise _ (s.mQueue ++ [b])
      rw [(hz hg.2).1]
      simp
    · intro hfs
      exact absurd hfs (by show ¬ t = 0; omega)
  · rw [queuePacket_else _ _ _ hg]
    refine ⟨insertQueue_pairwise _ _ hq, ?_⟩
    intro hfs
    exact absurd ⟨(hz hfs).2, hfs⟩ hg

lemma runInsertions_QInv (ps : List (Buffer × ℤ)) : ∀ s, QInv s →
    (∀ p ∈ ps, 0 < p.2) → QInv (runInsertions s ps) := by
  induction ps with
  | nil => intro s h _; exact h
  | cons p ps ih =>
    intro s h ht
    simp only [runInsertions]
    exact ih _ (queuePacket_QInv _ _ _ (ht p (by simp)) h)
      (fun q hq => ht q (by simp [hq]))

/-- C3.  After every sequence of packet insertions (duplicates included)
performed on a freshly constructed source with plausible (positive) clock
readings, the reorder queue is strictly ascending in extended sequence
number — in particular it holds no two entries with the same key. -/
theorem c3_queue_sorted_nodup (ssrc firSeed : ℕ) (issueFIR hasAsm : Bool)
    (ps : List (Buffer × ℤ)) (ht : ∀ p ∈ ps, 0 < p.2) :
    List.Pairwise (fun a b : ℕ => a < b)
      (queueKeys (runInsertions (ARTPSource.construct ssrc issueFIR hasAsm firSeed) ps)) ∧
    (queueKeys (runInsertions (ARTPSource.construct ssrc issueFIR hasAsm firSeed) ps)).Nodup := by
  have h := runInsertions_QInv ps (ARTPSource.construct ssrc issueFIR hasAsm firSeed)
    ⟨List.Pairwise.nil, fun _ => ⟨rfl, rfl⟩⟩ ht
  have hp : List.Pairwise (fun a b : ℕ => a < b)
      (queueKeys (runInsertions (ARTPSource.construct ssrc issueFIR hasAsm firSeed) ps)) :=
    List.pairwise_map.mpr h.1
  exact ⟨hp, hp.imp (fun hlt => Nat.ne_of_lt hlt)⟩

/-- Witness for C3: four insertions, out of order and with one duplicate,
with positive clock readings. -/
theorem c3_witness :
    List.Pairwise (fun a b : ℕ => a < b)
      (queueKeys (runInsertions (ARTPSource.construct 5 false true 0)
        [({ payload := 0, rtpTime := 0, seq := 100 }, 1),
         ({ payload := 0, rtpTime := 0, seq := 102 }, 2),
         ({ payload := 0, rtpTime := 0, seq := 101 }, 3),
         ({ payload := 0, rtpTime := 0, seq := 101 }, 4)])) ∧
    (queueKeys (runInsertions (ARTPSource.construct 5 false true 0)
        [({ payload := 0, rtpTime := 0, seq := 100 }, 1),
         ({ payload := 0, rtpTime := 0, seq := 102 }, 2),
         ({ payload := 0, rtpTime := 0, seq := 101 }, 3),
         ({ payload := 0, rtpTime := 0, seq := 101 }, 4)])).Nodup :=
  c3_queue_sorted_nodup 5 0 false true _ (by decide)

/-! Duplicate handling (C4). -/

/-- C4.  On a source past its first packet with a sorted queue: (a) a packet
whose resolved extended sequence number is already present in the queue is
rejected — `queuePacket` returns `false`, the queue is untouched and keeps
exactly one entry for that key — yet `mNumBuffersReceived` (incremented
before the duplicate check) is not rolled back; (b) inserting the same
packet twice leaves one new queue entry while the counter grows by 2, the
second call returning `false`. -/
theorem c4_duplicate_rejection (s : ARTPSource) (t : ℤ) (b : Buffer)
    (hF : s.mFirstSysTime ≠ 0) (hH : s.mHighestSeqNumber < 2 ^ 32)
    (hw : b.seq < 65536)
    (hq : List.Pairwise (fun u v : Buffer => u.seq < v.seq) s.mQueue) :
    ((queuePacket s t b).2.2 ∈ queueKeys s →
      (queuePacket s t b).2.1 = false ∧
      (queuePacket s t b).1.mQueue = s.mQueue ∧
      (queuePacket s t b).1.mNumBuffersReceived = s.mNumBuffersReceived + 1 ∧
      (queueKeys (queuePacket s t b).1).count ((queuePacket s t b).2.2) = 1) ∧
    ((queuePacket s t b).2.1 = true →
      (queuePacket (queuePacket s t b).1 t b).2.1 = false ∧
      (queuePacket (queuePacket s t b).1 t b).1.mQueue = (queuePacket s t b).1.mQueue ∧
      (queuePacket (queuePacket s t b).1 t b).1.mNumBuffersReceived
        = s.mNumBuffersReceived + 2 ∧
      (queuePacket s t b).1.mQueue.length = s.mQueue.length + 1 ∧
      (queueKeys (queuePacket (queuePacket s t b).1 t b).1).count
        ((queuePacket s t b).2.2) = 1) := by
  have hg : ¬ (s.mNumBuffersReceived = 0 ∧ s.mFirstSysTime = 0) := fun hc => hF hc.2
  have ha : resolveSeq s.mHighestSeqNumber b.seq < 2 ^ 32 :=
    resolveSeq_lt s.mHighestSeqNumber b.seq hH hw
  constructor
  · -- (a) duplicate key already in the queue
    intro hmem
    rw [queuePacket_else _ _ _ hg] at hmem ⊢
    dsimp only at hmem ⊢
    have hdup := insertQueue_dup s.mQueue { b with seq := resolveSeq s.mHighestSeqNumber b.seq }
      hq (by simpa [queueKeys] using hmem)
    rw [hdup]
    refine ⟨rfl, rfl, rfl, ?_⟩
    exact List.count_eq_one_of_mem (pairwise_keys_nodup hq) (by simpa [queueKeys] using hmem)
  · -- (b) same packet twice
    intro hacc
    rw [queuePacket_else _ _ _ hg] at hacc ⊢
    dsimp only at hacc ⊢
    set a := resolveSeq s.mHighestSeqNumber b.seq with hadef
    -- state after the accepted first insertion
    have hq1 : List.Pairwise (fun u v : Buffer => u.seq < v.seq)
        (insertQueue s.mQueue { b with seq := a }).1 := insertQueue_pairwise _ _ hq
    have hmem1 : ({ b with seq := a } : Buffer) ∈ (insertQueue s.mQueue { b with seq := a }).1 :=
      insertQueue_mem_self _ _ hacc
    have hg1 : ¬ ((s.mNumBuffersReceived + 1 : ℤ) = 0 ∧ s.mFirstSysTime = 0) :=
      fun hc => hF hc.2
    rw [queuePacket_else _ _ _ hg1]
    dsimp only
    -- the second resolution yields the same extended value
    have hres2 : resolveSeq (max s.mHighestSeqNumber a) b.seq = a := by
      rcases le_or_lt a s.mHighestSeqNumber with hc | hc
      · rw [Nat.max_eq_left hc]
      · rw [Nat.max_eq_right (le_of_lt hc)]
        have hmod : a % 65536 = b.seq := resolveSeq_mod s.mHighestSeqNumber b.seq hH hw
        have := resolveSeq_correct a a ha ha (by simp [AbsDiff])
        rw [hmod] at this
        exact this
    rw [hres2]
    have hkey : (⟨b.payload, b.rtpTime, a⟩ : Buffer).seq
        ∈ (insertQueue s.mQueue { b with seq := a }).1.map Buffer.seq :=
      List.mem_map.mpr ⟨{ b with seq := a }, hmem1, rfl⟩
    have hdup2 := insertQueue_dup (insertQueue s.mQueue { b with seq := a }).1
      { b with seq := a } hq1 hkey
    rw [hdup2]
    refine ⟨rfl, rfl, by ring_nf, insertQueue_length _ _ hacc, ?_⟩
    exact List.count_eq_one_of_mem (pairwise_keys_nodup hq1) hkey

/-- Witness for C4: a source that has accepted packet 100; re-inserting 100
is rejected with the counter still incremented (part a), and inserting 101
twice grows the counter by 2 and the queue by 1 (part b). -/
theorem c4_witness :
    ((queuePacket ((queuePacket (ARTPSource.construct 5 false true 0) 1
          { payload := 0, rtpTime := 0, seq := 100 }).1) 2
          { payload := 0, rtpTime := 0, seq := 100 }).2.1 = false ∧
      (queuePacket ((queuePacket (ARTPSource.construct 5 false true 0) 1
          { payload := 0, rtpTime := 0, seq := 100 }).1) 2
          { payload := 0, rtpTime := 0, seq := 100 }).1.mNumBuffersReceived = 2) ∧
    ((queuePacket (queuePacket ((queuePacket (ARTPSource.construct 5 false true 0) 1
          { payload := 0, rtpTime := 0, seq := 100 }).1) 2
          { payload := 0, rtpTime := 0, seq := 101 }).1 2
          { payload := 0, rtpTime := 0, seq := 101 }).2.1 = false ∧
      (queuePacket (queuePacket ((queuePacket (ARTPSource.construct 5 false true 0) 1
          { payload := 0, rtpTime := 0, seq := 100 }).1) 2
          { payload := 0, rtpTime := 0, seq := 101 }).1 2
          { payload := 0, rtpTime := 0, seq := 101 }).1.mNumBuffersReceived = 3) := by
  constructor
  · have h := (c4_duplicate_rejection ((queuePacket (ARTPSource.construct 5 false true 0) 1
        { payload := 0, rtpTime := 0, seq := 100 }).1) 2
        { payload := 0, rtpTime := 0, seq := 100 }
        (by decide) (by decide) (by decide) (by decide)).1 (by decide)
    exact ⟨h.1, by rw [h.2.2.1]; decide⟩
  · have h := (c4_duplicate_rejection ((queuePacket (ARTPSource.construct 5 false true 0) 1
        { payload := 0, rtpTime := 0, seq := 100 }).1) 2
        { payload := 0, rtpTime := 0, seq := 101 }
        (by decide) (by decide) (by decide) (by decide)).2 (by decide)
    exact ⟨h.1, by rw [h.2.2.1]; decide⟩

/-! Monotonicity of the highest extended sequence number (C2). -/

lemma processRTPPacket_noasm (s : ARTPSource) (t : ℤ) (b : Buffer)
    (hA : s.hasAssembler = false) : processRTPPacket s t b = (s, none) := by
  unfold processRTPPacket
  rw [hA]
  simp

lemma processRTPPacket_asm (s : ARTPSource) (t : ℤ) (b : Buffer)
    (hA : s.hasAssembler = true) :
    processRTPPacket s t b =
      ((queuePacket s t b).1,
       some ((queuePacket s t b).2.1, (queuePacket s t b).2.2)) := by
  unfold processRTPPacket
  rw [hA]
  simp

/-- Frame of `addFIR`: only the FIR bookkeeping fields change. -/
lemma addFIR_frame (k : ℕ) (s : ARTPSource) (nowUs : ℤ) (sz cap : ℕ) :
    (addFIR k s nowUs sz cap).1.mHighestSeqNumber = s.mHighestSeqNumber ∧
    (addFIR k s nowUs sz cap).1.mFirstSysTime = s.mFirstSysTime ∧
    (addFIR k s nowUs sz cap).1.mNumBuffersReceived = s.mNumBuffersReceived ∧
    (addFIR k s nowUs sz cap).1.hasAssembler = s.hasAssembler := by
  unfold addFIR
  split_ifs <;> exact ⟨rfl, rfl, rfl, rfl⟩

/-- Frame of `addReceiverReport`: only the loss snapshots and the quality
manager change. -/
lemma addReceiverReport_frame (k : ℕ) (qual : QualCurve) (s : ARTPSource)
    (dlsr sz cap : ℕ) :
    (addReceiverReport k qual s dlsr sz cap).1.mHighestSeqNumber = s.mHighestSeqNumber ∧
    (addReceiverReport k qual s dlsr sz cap).1.mFirstSysTime = s.mFirstSysTime ∧
    (addReceiverReport k qual s dlsr sz cap).1.mNumBuffersReceived = s.mNumBuffersReceived ∧
    (addReceiverReport k qual s dlsr sz cap).1.hasAssembler = s.hasAssembler := by
  unfold addReceiverReport
  split_ifs <;> exact ⟨rfl, rfl, rfl, rfl⟩

/-- `addTMMBR` never mutates the state. -/
lemma addTMMBR_state (k : ℕ) (s : ARTPSource) (sz cap : ℕ) :
    (addTMMBR k s sz cap).1 = s := by
  unfold addTMMBR
  split_ifs <;> rfl

lemma runOps_cons (k : ℕ) (qual : QualCurve) (s : ARTPSource) (op : Op)
    (ops : List Op) :
    runOps k qual s (op :: ops) = runOps k qual (Op.step k qual s op) ops := rfl

lemma runOps_append (k : ℕ) (qual : QualCurve) (s : ARTPSource)
    (l1 l2 : List Op) :
    runOps k qual s (l1 ++ l2) = runOps k qual (runOps k qual s l1) l2 := by
  simp [runOps, List.foldl_append]

/-- Invariant under which one operation cannot decrease
`mHighestSeqNumber`: while no packet has been accepted as the first one,
the highest is still zero, and (when packets can reach `queuePacket` at
all) the arrival counter is still zero. -/
def HInv (s : ARTPSource) : Prop :=
  s.mFirstSysTime = 0 →
    s.mHighestSeqNumber = 0 ∧ (s.hasAssembler = true → s.mNumBuffersReceived = 0)

/-- A single operation leaves `mHighestSeqNumber` no smaller, given the
invariant. -/
lemma step_mono (kSID : ℕ) (qual : QualCurve) (s : ARTPSource) (op : Op)
    (hK : HInv s) :
    s.mHighestSeqNumber ≤ (Op.step kSID qual s op).mHighestSeqNumber := by
  cases op with
  | packet b t =>
    by_cases hA : s.hasAssembler = true
    · simp only [Op.step]
      rw [processRTPPacket_asm _ _ _ hA]
      by_cases hg : (s.mNumBuffersReceived = 0 ∧ s.mFirstSysTime = 0)
      · rw [queuePacket_first _ _ _ hg]
        show s.mHighestSeqNumber ≤ b.seq
        rw [(hK hg.2).1]
        exact Nat.zero_le _
      · rw [queuePacket_else _ _ _ hg]
        exact le_max_left _ _
    · simp only [Op.step]
      rw [processRTPPacket_noasm _ _ _ (by simpa using hA)]
  | abandon c => exact le_refl _
  | fir t sz cap =>
    rw [show (Op.step kSID qual s (Op.fir t sz cap)).mHighestSeqNumber
        = s.mHighestSeqNumber from (addFIR_frame kSID s t sz cap).1]
  | report d sz cap =>
    rw [show (Op.step kSID qual s (Op.report d sz cap)).mHighestSeqNumber
        = s.mHighestSeqNumber from (addReceiverReport_frame kSID qual s d sz cap).1]
  | tmmbr sz cap =>
    rw [show (Op.step kSID qual s (Op.tmmbr sz cap)).mHighestSeqNumber
        = s.mHighestSeqNumber from congrArg _ (addTMMBR_state kSID s sz cap)]
  | timeUpd r n t => exact le_refl _

/-- One operation preserves the invariant, provided clocks are plausible
and no abandon arrives while the source still waits for its first packet. -/
lemma step_HInv (kSID : ℕ) (qual : QualCurve) (s : ARTPSource) (op : Op)
    (hK : HInv s) (ht : op.timeOK = true)
    (hab : s.mFirstSysTime = 0 → s.hasAssembler = true → ∀ c, op ≠ Op.abandon c) :
    HInv (Op.step kSID qual s op) := by
  cases op with
  | packet b t =>
    simp only [Op.timeOK, decide_eq_true_eq] at ht
    by_cases hA : s.hasAssembler = true
    · simp only [Op.step]
      rw [processRTPPacket_asm _ _ _ hA]
      by_cases hg : (s.mNumBuffersReceived = 0 ∧ s.mFirstSysTime = 0)
      · rw [queuePacket_first _ _ _ hg]
        intro hfs
        exact absurd hfs (by show ¬ t = 0; omega)
      · rw [queuePacket_else _ _ _ hg]
        intro hfs
        have hfs' : s.mFirstSysTime = 0 := hfs
        exact absurd ⟨(hK hfs').2 hA, hfs'⟩ hg
    · simp only [Op.step]
      rw [processRTPPacket_noasm _ _ _ (by simpa using hA)]
      exact hK
  | abandon c =>
    intro hfs
    have hfs' : s.mFirstSysTime = 0 := hfs
    refine ⟨(hK hfs').1, fun hA => ?_⟩
    exact absurd rfl (hab hfs' hA c)
  | fir t sz cap =>
    obtain ⟨e1, e2, e3, e4⟩ := addFIR_frame kSID s t sz cap
    intro hfs
    rw [show (Op.step kSID qual s (Op.fir t sz cap)).mFirstSysTime
        = s.mFirstSysTime from e2] at hfs
    obtain ⟨k1, k2⟩ := hK hfs
    refine ⟨by rw [show (Op.step kSID qual s (Op.fir t sz cap)).mHighestSeqNumber
        = s.mHighestSeqNumber from e1]; exact k1, fun hA => ?_⟩
    rw [show (Op.step kSID qual s (Op.fir t sz cap)).mNumBuffersReceived
        = s.mNumBuffersReceived from e3]
    exact k2 (by rw [show (Op.step kSID qual s (Op.fir t sz cap)).hasAssembler
        = s.hasAssembler from e4] at hA; exact hA)
  | report d sz cap =>
    obtain ⟨e1, e2, e3, e4⟩ := addReceiverReport_frame kSID qual s d sz cap
    intro hfs
    rw [show (Op.step kSID qual s (Op.report d sz cap)).mFirstSysTime
        = s.mFirstSysTime from e2] at hfs
    obtain ⟨k1, k2⟩ := hK hfs
    refine ⟨by rw [show (Op.step kSID qual s (Op.report d sz cap)).mHighestSeqNumber
        = s.mHighestSeqNumber from e1]; exact k1, fun hA => ?_⟩
    rw [show (Op.step kSID qual s (Op.report d sz cap)).mNumBuffersReceived
        = s.mNumBuffersReceived from e3]
    exact k2 (by rw [show (Op.step kSID qual s (Op.report d sz cap)).hasAssembler
        = s.hasAssembler from e4] at hA; exact hA)
  | tmmbr sz cap =>
    have e := addTMMBR_state kSID s sz cap
    show HInv (addTMMBR kSID s sz cap).1
    rw [e]
    exact hK
  | timeUpd r n t =>
    intro hfs
    exact hK hfs

/-- A prefix of an abandon-free-before-first-packet trace is itself
abandon-free before its first packet. -/
lemma noEarlyAbandon_append (l1 l2 : List Op) :
    noEarlyAbandon (l1 ++ l2) = true → noEarlyAbandon l1 = true := by
  induction l1 with
  | nil => intro _; rfl
  | cons op l1 ih =>
    intro h
    cases op with
    | packet b t => rfl
    | abandon c => exact h
    | fir t sz cap => exact ih h
    | report d sz cap => exact ih h
    | tmmbr sz cap => exact ih h
    | timeUpd r n t => exact ih h

/-- The invariant holds after any run whose clocks are plausible and whose
abandons all come after the first packet. -/
lemma runOps_HInv (kSID : ℕ) (qual : QualCurve) (ops : List Op) : ∀ s, HInv s →
    (∀ o ∈ ops, o.timeOK = true) →
    (s.mFirstSysTime = 0 → s.hasAssembler = true → noEarlyAbandon ops = true) →
    HInv (runOps kSID qual s ops) := by
  induction ops with
  | nil => intro s h _ _; exact h
  | cons op ops ih =>
    intro s hK ht hna
    rw [runOps_cons]
    have htop : op.timeOK = true := ht op (by simp)
    have httail : ∀ o ∈ ops, o.timeOK = true := fun o ho => ht o (by simp [ho])
    have hab : s.mFirstSysTime = 0 → s.hasAssembler = true → ∀ c, op ≠ Op.abandon c := by
      intro hfs hA c hc
      subst hc
      exact absurd (hna hfs hA) (by simp [noEarlyAbandon])
    refine ih _ (step_HInv kSID qual s op hK htop hab) httail ?_
    intro hfs' hA'
    cases op with
    | packet b t =>
      exfalso
      simp only [Op.timeOK, decide_eq_true_eq] at htop
      by_cases hA : s.hasAssembler = true
      · rw [show Op.step kSID qual s (Op.packet b t) = (queuePacket s t b).1 from by
            simp only [Op.step]; rw [processRTPPacket_asm _ _ _ hA]] at hfs' hA'
        by_cases hg : (s.mNumBuffersReceived = 0 ∧ s.mFirstSysTime = 0)
        · rw [queuePacket_first _ _ _ hg] at hfs'
          exact absurd hfs' (by show ¬ t = 0; omega)
        · rw [queuePacket_else _ _ _ hg] at hfs' hA'
          exact hg ⟨(hK hfs').2 hA, hfs'⟩
      · rw [show Op.step kSID qual s (Op.packet b t) = s from by
            simp only [Op.step]; rw [processRTPPacket_noasm _ _ _ (by simpa using hA)]] at hA'
        exact hA (by exact hA')
    | abandon c =>
      exfalso
      exact absurd (hna hfs' hA') (by simp [noEarlyAbandon])
    | fir t sz cap =>
      obtain ⟨e1, e2, e3, e4⟩ := addFIR_frame kSID s t sz cap
      exact hna (by rw [show (Op.step kSID qual s (Op.fir t sz cap)).mFirstSysTime
          = s.mFirstSysTime from e2] at hfs'; exact hfs')
        (by rw [show (Op.step kSID qual s (Op.fir t sz cap)).hasAssembler
          = s.hasAssembler from e4] at hA'; exact hA')
    | report d sz cap =>
      obtain ⟨e1, e2, e3, e4⟩ := addReceiverReport_frame kSID qual s d sz cap
      exact hna (by rw [show (Op.step kSID qual s (Op.report d sz cap)).mFirstSysTime
          = s.mFirstSysTime from e2] at hfs'; exact hfs')
        (by rw [show (Op.step kSID qual s (Op.report d sz cap)).hasAssembler
          = s.hasAssembler from e4] at hA'; exact hA')
    | tmmbr sz cap =>
      have e := addTMMBR_state kSID s sz cap
      rw [show Op.step kSID qual s (Op.tmmbr sz cap) = s from e] at hfs' hA'
      exact hna hfs' hA'
    | timeUpd r n t =>
      exact hna hfs' hA'

/-- Counterexample to C2 as stated: with an abandon arriving before the
first packet (all clock readings plausible), `mHighestSeqNumber` drops from
100 to 50 on the third operation. -/
theorem c2_counterexample :
    (runOps 0 { update := fun t _ => t } (ARTPSource.construct 7 false true 0)
        [Op.abandon 1, Op.packet { payload := 0, rtpTime := 0, seq := 100 } 5]).mHighestSeqNumber
      = 100 ∧
    (runOps 0 { update := fun t _ => t } (ARTPSource.construct 7 false true 0)
        [Op.abandon 1, Op.packet { payload := 0, rtpTime := 0, seq := 100 } 5,
         Op.packet { payload := 0, rtpTime := 0, seq := 50 } 6]).mHighestSeqNumber
      = 50 ∧
    (∀ o ∈ [Op.abandon 1, Op.packet { payload := 0, rtpTime := 0, seq := 100 } 5,
         Op.packet { payload := 0, rtpTime := 0, seq := 50 } 6], o.timeOK = true) :=
  ⟨by decide, by decide, by decide⟩

/-- C2 (amended).  Across every interleaving of operations on one source —
packets, abandons, report builds, time updates — started from the
constructor state, `mHighestSeqNumber` never decreases, PROVIDED the clock
readings are plausible (positive at packet arrivals, non-negative
elsewhere) and no `noticeAbandonBuffer` call precedes the first
`processRTPPacket` call.  (The counterexample shows the proviso is
necessary: an early abandon makes the arrival counter negative, the first
packet then skips the baseline branch leaving `mFirstSysTime` zero, and a
later packet re-enters the baseline branch and overwrites the highest.) -/
theorem c2_highest_monotone_amended (kSID : ℕ) (qual : QualCurve)
    (ssrc firSeed : ℕ) (issueFIR hasAsm : Bool) (l1 l2 : List Op) (op : Op)
    (ht : ∀ o ∈ l1 ++ op :: l2, o.timeOK = true)
    (hna : noEarlyAbandon (l1 ++ op :: l2) = true) :
    (runOps kSID qual (ARTPSource.construct ssrc issueFIR hasAsm firSeed)
        l1).mHighestSeqNumber ≤
    (runOps kSID qual (ARTPSource.construct ssrc issueFIR hasAsm firSeed)
        (l1 ++ [op])).mHighestSeqNumber := by
  have hK : HInv (runOps kSID qual (ARTPSource.construct ssrc issueFIR hasAsm firSeed) l1) :=
    runOps_HInv kSID qual l1 _ (fun _ => ⟨rfl, fun _ => rfl⟩)
      (fun o ho => ht o (by simp [ho]))
      (fun _ _ => noEarlyAbandon_append l1 (op :: l2) hna)
  rw [runOps_append]
  exact step_mono kSID qual _ op hK

/-- Witness for C2 (amended): a well-ordered trace — packet 100 then a
packet 50 arriving late — leaves the highest at 100, not decreasing. -/
theorem c2_witness :
    (runOps 0 { update := fun t _ => t } (ARTPSource.construct 7 false true 0)
        [Op.packet { payload := 0, rtpTime := 0, seq := 100 } 5]).mHighestSeqNumber ≤
    (runOps 0 { update := fun t _ => t } (ARTPSource.construct 7 false true 0)
        ([Op.packet { payload := 0, rtpTime := 0, seq := 100 } 5] ++
          [Op.packet { payload := 0, rtpTime := 0, seq := 50 } 6])).mHighestSeqNumber :=
  c2_highest_monotone_amended 0 { update := fun t _ => t } 7 0 false true
    [Op.packet { payload := 0, rtpTime := 0, seq := 100 } 5] []
    (Op.packet { payload := 0, rtpTime := 0, seq := 50 } 6)
    (by decide) (by decide)

/-! No-assembler degraded mode (C10). -/

/-- C10.  When the source holds no assembler (the codec's `initCheck`
failed at construction), every `processRTPPacket` call leaves the entire
source state unchanged — nothing is queued, no counter moves, the highest
and baseline fields are untouched — and consequently `isNeedToReport`
stays `false` no matter how many packets arrive. -/
theorem c10_no_assembler_noop (s : ARTPSource) (hA : s.hasAssembler = false)
    (ps : List (Buffer × ℤ)) :
    runPackets s ps = s ∧
    (isNeedToReport s = false → isNeedToReport (runPackets s ps) = false) := by
  have h : ∀ qs : List (Buffer × ℤ), runPackets s qs = s := by
    intro qs
    induction qs with
    | nil => rfl
    | cons p qs ih =>
      show runPackets (processRTPPacket s p.2 p.1).1 qs = s
      rw [processRTPPacket_noasm _ _ _ hA]
      exact ih
  exact ⟨h ps, fun hn => by rw [h ps]; exact hn⟩

/-- Witness for C10: a source constructed with a failed assembler
self-check drops three packets without any state change. -/
theorem c10_witness :
    runPackets (ARTPSource.construct 9 false false 3)
        [({ payload := 0, rtpTime := 0, seq := 100 }, 1),
         ({ payload := 0, rtpTime := 0, seq := 101 }, 2),
         ({ payload := 0, rtpTime := 0, seq := 102 }, 3)]
      = ARTPSource.construct 9 false false 3 ∧
    isNeedToReport (runPackets (ARTPSource.construct 9 false false 3)
        [({ payload := 0, rtpTime := 0, seq := 100 }, 1),
         ({ payload := 0, rtpTime := 0, seq := 101 }, 2),
         ({ payload := 0, rtpTime := 0, seq := 102 }, 3)]) = false := by
  have h := c10_no_assembler_noop (ARTPSource.construct 9 false false 3) rfl
    [({ payload := 0, rtpTime := 0, seq := 100 }, 1),
     ({ payload := 0, rtpTime := 0, seq := 101 }, 2),
     ({ payload := 0, rtpTime := 0, seq := 102 }, 3)]
  exact ⟨h.1, h.2 (by decide)⟩

/-! Capacity checks of the three report builders (C7). -/

/-- Counterexample to C7 as stated.  First: `addTMMBR` with remaining
capacity exactly 20 bytes — the TMMBR block size — and a positive target
bitrate appends nothing, because the source checks `size() + 32 >
capacity()` (a copy of the RR check) although it writes 20 bytes.  Second:
a capacity-failing `addFIR` call is not state-free — it still updates the
FIR rate-limit timestamp `mLastFIRRequestUs` (written before the capacity
check), here from -1 to 1000. -/
theorem c7_counterexample :
    (addTMMBR 0 { ARTPSource.construct 7 false true 0 with
        mTargetBitrate := 256000 } 0 20).2 = [] ∧
    (0 : ℕ) + 20 ≤ 20 ∧
    (0 : ℤ) < 256000 ∧
    (addFIR 0 (ARTPSource.construct 7 true true 0) 1000 0 0).2 = [] ∧
    (ARTPSource.construct 7 true true 0).mLastFIRRequestUs = -1 ∧
    (addFIR 0 (ARTPSource.construct 7 true true 0) 1000 0 0).1.mLastFIRRequestUs
      = 1000 :=
  ⟨by decide, by decide, by decide, by decide, by decide, by decide⟩

/-- C7 (amended).  Capacity behaviour of the three builders: RR appends its
32-byte block iff 32 bytes fit, and a capacity-failing RR call is a
complete no-op (state and output); TMMBR appends its 20-byte block iff 32
(not 20) spare bytes are available and the target bitrate is positive, and
otherwise changes nothing; FIR appends its 20-byte block iff its gates pass
and 20 bytes fit, but a capacity-failing FIR call that passed the gates
still updates `mLastFIRRequestUs` (and changes nothing else), because the
timestamp is written before the capacity check. -/
theorem c7_capacity_amended (kSID : ℕ) (qual : QualCurve) (s : ARTPSource)
    (nowUs : ℤ) (dlsr sz cap : ℕ) :
    (s.mIssueFIRRequests = true →
      ¬ (0 ≤ s.mLastFIRRequestUs ∧ nowUs < s.mLastFIRRequestUs + 5000000) →
      sz + 20 ≤ cap →
      (addFIR kSID s nowUs sz cap).2.length = 20) ∧
    (s.mIssueFIRRequests = true →
      ¬ (0 ≤ s.mLastFIRRequestUs ∧ nowUs < s.mLastFIRRequestUs + 5000000) →
      cap < sz + 20 →
      (addFIR kSID s nowUs sz cap).2 = [] ∧
      (addFIR kSID s nowUs sz cap).1 = { s with mLastFIRRequestUs := nowUs }) ∧
    (sz + 32 ≤ cap →
      (addReceiverReport kSID qual s dlsr sz cap).2.length = 32) ∧
    (cap < sz + 32 →
      addReceiverReport kSID qual s dlsr sz cap = (s, [])) ∧
    (sz + 32 ≤ cap → 0 < s.mTargetBitrate →
      (addTMMBR kSID s sz cap).2.length = 20) ∧
    (cap < sz + 32 →
      addTMMBR kSID s sz cap = (s, [])) := by
  refine ⟨?_, ?_, ?_, ?_, ?_, ?_⟩
  · intro hi hg hc
    unfold addFIR
    rw [if_neg (by simp [hi]), if_neg (by omega), if_neg (by omega)]
    simp [be32]
  · intro hi hg hc
    unfold addFIR
    rw [if_neg (by simp [hi]), if_neg (by omega), if_pos (by omega)]
    exact ⟨rfl, rfl⟩
  · intro hc
    unfold addReceiverReport
    rw [if_neg (by omega)]
    simp [be32]
  · intro hc
    unfold addReceiverReport
    rw [if_pos (by omega)]
  · intro hc ht
    unfold addTMMBR
    rw [if_neg (by omega), if_neg (by omega)]
    simp [be32]
  · intro hc
    unfold addTMMBR
    rw [if_pos (by omega)]

/-- Witness for C7 (amended): concrete calls of each builder on a source
with one received packet and a positive target bitrate. -/
theorem c7_witness :
    (addFIR 3 { ARTPSource.construct 7 true true 0 with
        mTargetBitrate := 256000 } 1000 0 100).2.length = 20 ∧
    (addReceiverReport 3 { update := fun t _ => t }
      { ARTPSource.construct 7 true true 0 with mTargetBitrate := 256000 }
      0 0 100).2.length = 32 ∧
    (addTMMBR 3 { ARTPSource.construct 7 true true 0 with
        mTargetBitrate := 256000 } 0 100).2.length = 20 ∧
    addTMMBR 3 { ARTPSource.construct 7 true true 0 with
        mTargetBitrate := 256000 } 0 25
      = ({ ARTPSource.construct 7 true true 0 with mTargetBitrate := 256000 }, []) := by
  obtain ⟨h1, _, h3, _, h5, h6⟩ := c7_capacity_amended 3 { update := fun t _ => t }
    { ARTPSource.construct 7 true true 0 with mTargetBitrate := 256000 } 1000 0 0 100
  refine ⟨h1 (by decide) (by decide) (by norm_num), h3 (by norm_num), ?_, ?_⟩
  · exact h5 (by norm_num) (by norm_num)
  · obtain ⟨_, _, _, _, _, h6'⟩ := c7_capacity_amended 3 { update := fun t _ => t }
      { ARTPSource.construct 7 true true 0 with mTargetBitrate := 256000 } 1000 0 0 25
    exact h6' (by norm_num)

/-! Receiver-report fields (C5, C9). -/

/-- Recomposing the four big-endian byte stores of a 32-bit value gives the
value back. -/
lemma be32_fields (v : ℕ) (hv : v < 2 ^ 32) :
    (v >>> 24) % 256 * 2 ^ 24 + ((v >>> 16) &&& 0xff) * 2 ^ 16 +
      ((v >>> 8) &&& 0xff) * 2 ^ 8 + (v &&& 0xff) = v := by
  have h1 : (0xff : ℕ) = 2 ^ 8 - 1 := by norm_num
  rw [h1, and_ones, and_ones, and_ones, Nat.shiftRight_eq_div_pow,
    Nat.shiftRight_eq_div_pow, Nat.shiftRight_eq_div_pow]
  omega

/-- Counterexample to C9 as stated: deliver the NTP time `2 ^ 32` (whose
top 32 bits are 1) via `timeUpdate`, build an RR block — the encoded
last-sender-report field holds `65536` (the MIDDLE 32 bits, i.e. bits
16..47, as the source computes `mLastNTPTime >> 16`), not the claimed top
32 bits. -/
theorem c9_counterexample :
    decodeLSR (addReceiverReport 0 { update := fun t _ => t }
        (timeUpdate (ARTPSource.construct 7 false true 0) 0 4294967296 7) 0 0 32).2
      = 65536 ∧
    (4294967296 : ℕ) >>> 32 = 1 ∧
    (65536 : ℕ) ≠ 1 :=
  ⟨by decide, by decide, by decide⟩

/-- C9 (amended).  In every RR block, bytes 24-27 carry the MIDDLE 32 bits
(bits 16..47, `(ntp >> 16) & 0xffffffff`) of the most recent 64-bit NTP
time delivered via `timeUpdate`, and zero if no NTP time has been received
yet. -/
theorem c9_lsr_amended (kSID : ℕ) (qual : QualCurve) (s : ARTPSource)
    (rtp ntp : ℕ) (tNow : ℤ) (dlsr sz cap : ℕ) (hcap : sz + 32 ≤ cap) :
    decodeLSR (addReceiverReport kSID qual (timeUpdate s rtp ntp tNow) dlsr sz cap).2
      = (ntp >>> 16) % 2 ^ 32 ∧
    (s.mLastNTPTime = 0 →
      decodeLSR (addReceiverReport kSID qual s dlsr sz cap).2 = 0) := by
  constructor
  · unfold addReceiverReport
    rw [if_neg (by omega)]
    by_cases hntp : ntp = 0
    · subst hntp
      simp [decodeLSR, be32, List.getD, timeUpdate]
    · have hv : (ntp >>> 16) &&& 0xffffffff = (ntp >>> 16) % 2 ^ 32 := by
        rw [show (0xffffffff : ℕ) = 2 ^ 32 - 1 from by norm_num, and_ones]
      simp [decodeLSR, be32, List.getD, timeUpdate, hntp, hv]
      simp only [show (255 : ℕ) = 2 ^ 8 - 1 from by norm_num, and_ones,
        Nat.shiftRight_eq_div_pow]
      omega
  · intro h0
    unfold addReceiverReport
    rw [if_neg (by omega)]
    simp [decodeLSR, be32, List.getD, h0]

/-- Witness for C9 (amended): NTP time `0x1234567800000000` yields LSR
field `0x56780000`; a fresh source yields zero. -/
theorem c9_witness :
    decodeLSR (addReceiverReport 0 { update := fun t _ => t }
        (timeUpdate (ARTPSource.construct 7 false true 0) 0 1311768467139281408 9)
        0 0 32).2
      = (1311768467139281408 >>> 16) % 2 ^ 32 ∧
    decodeLSR (addReceiverReport 0 { update := fun t _ => t }
        (ARTPSource.construct 7 false true 0) 0 0 32).2 = 0 := by
  constructor
  · exact (c9_lsr_amended 0 { update := fun t _ => t }
      (ARTPSource.construct 7 false true 0) 0 1311768467139281408 9 0 0 32
      (by norm_num)).1
  · exact (c9_lsr_amended 0 { update := fun t _ => t }
      (ARTPSource.construct 7 false true 0) 0 0 9 0 0 32 (by norm_num)).2 rfl

/-- Roundtrip of the 24-bit signed cumulative-lost encoding: arithmetic
shifts plus `uint8_t` truncation, decoded as a signed 24-bit quantity,
reproduce any value in the representable range. -/
lemma sbyte_decode (c : ℤ) (h1 : -(2 ^ 23) ≤ c) (h2 : c < 2 ^ 23) :
    (((sbyte c 16 * 2 ^ 16 + sbyte c 8 * 2 ^ 8 + sbyte c 0 : ℕ) : ℤ)
        + 2 ^ 23) % 2 ^ 24 - 2 ^ 23 = c := by
  simp only [sbyte]
  omega

/-- Counterexample to C5 as stated: after one received packet and one
abandoned buffer (`interval_expected = 1`, `interval_lost = 1`, both
positive), the encoded fraction-lost byte is 0, while the claimed formula
`(interval_lost << 8) / interval_expected` gives 256 — the source stores
the value in a `uint8_t`, truncating modulo 256, which the claim omits. -/
theorem c5_counterexample :
    (noticeAbandonBuffer ((queuePacket (ARTPSource.construct 7 false true 0) 1
        { payload := 0, rtpTime := 0, seq := 100 }).1) 1).mHighestSeqNumber = 100 ∧
    (noticeAbandonBuffer ((queuePacket (ARTPSource.construct 7 false true 0) 1
        { payload := 0, rtpTime := 0, seq := 100 }).1) 1).mBaseSeqNumber = 100 ∧
    (noticeAbandonBuffer ((queuePacket (ARTPSource.construct 7 false true 0) 1
        { payload := 0, rtpTime := 0, seq := 100 }).1) 1).mNumBuffersReceived = 0 ∧
    (noticeAbandonBuffer ((queuePacket (ARTPSource.construct 7 false true 0) 1
        { payload := 0, rtpTime := 0, seq := 100 }).1) 1).mPrevExpected = 0 ∧
    decodeFractionLost (addReceiverReport 0 { update := fun t _ => t }
        (noticeAbandonBuffer ((queuePacket (ARTPSource.construct 7 false true 0) 1
          { payload := 0, rtpTime := 0, seq := 100 }).1) 1) 0 0 32).2 = 0 ∧
    ((1 : ℕ) <<< 8) / 1 = 256 ∧
    (0 : ℕ) ≠ 256 :=
  ⟨by decide, by decide, by decide, by decide, by decide, by decide, by decide⟩

/-- The loss quantities of the Receiver Report, as the spec states them
(section 4.4): `expected = highest - base + 1` (uint32),
`interval_expected = expected - prev_expected` (uint32 difference widened),
`interval_lost = interval_expected - (received - prev_received)`,
`cumulative_lost = (int32) expected - received`. -/
def rrExpected (s : ARTPSource) : ℕ :=
  (((s.mHighestSeqNumber : ℤ) - (s.mBaseSeqNumber : ℤ) + 1) % 2 ^ 32).toNat

/-- Interval-expected of the spec formulas; see `rrExpected`. -/
def rrIntervalExpected (s : ARTPSource) : ℤ :=
  ((rrExpected s : ℤ) - (s.mPrevExpected : ℤ)) % 2 ^ 32

/-- Interval-lost of the spec formulas; see `rrExpected`. -/
def rrIntervalLost (s : ARTPSource) : ℤ :=
  rrIntervalExpected s - (s.mNumBuffersReceived - s.mPrevNumBuffersReceived)

/-- Cumulative-lost of the spec formulas; see `rrExpected`. -/
def rrCumulativeLost (s : ARTPSource) : ℤ :=
  i32cast (rrExpected s) - s.mNumBuffersReceived

/-- The fraction-lost byte of the Receiver Report, per the spec formulas
(with the `uint8_t` truncation made explicit). -/
def rrFractionByte (s : ARTPSource) : ℕ :=
  if 0 < rrIntervalExpected s ∧ 0 < rrIntervalLost s then
    ((rrIntervalLost s).toNat <<< 8) / (rrIntervalExpected s).toNat % 256
  else 0

/-- The last-sender-report word of the Receiver Report. -/
def rrLSR (s : ARTPSource) : ℕ :=
  if s.mLastNTPTime ≠ 0 then (s.mLastNTPTime >>> 16) &&& 0xffffffff else 0

/-- The delay-since-last-SR word of the Receiver Report. -/
def rrDLSR (s : ARTPSource) (dlsr : ℕ) : ℕ :=
  if s.mLastNTPTime ≠ 0 then dlsr % 2 ^ 32 else 0

set_option maxRecDepth 16000 in
/-- Byte layout of the 32-byte Receiver Report block appended by
`addReceiverReport` when the capacity check passes. -/
lemma addReceiverReport_bytes (kSID : ℕ) (qual : QualCurve) (s : ARTPSource)
    (dlsr sz cap : ℕ) (hcap : sz + 32 ≤ cap) :
    (addReceiverReport kSID qual s dlsr sz cap).2 =
      0x81 :: 201 :: 0 :: 7 ::
      ((kSID >>> 24) % 256) :: ((kSID >>> 16) &&& 0xff) ::
      ((kSID >>> 8) &&& 0xff) :: (kSID &&& 0xff) ::
      ((s.mID >>> 24) % 256) :: ((s.mID >>> 16) &&& 0xff) ::
      ((s.mID >>> 8) &&& 0xff) :: (s.mID &&& 0xff) ::
      rrFractionByte s ::
      sbyte (rrCumulativeLost s) 16 :: sbyte (rrCumulativeLost s) 8 ::
      sbyte (rrCumulativeLost s) 0 ::
      ((s.mHighestSeqNumber >>> 24) % 256) :: ((s.mHighestSeqNumber >>> 16) &&& 0xff) ::
      ((s.mHighestSeqNumber >>> 8) &&& 0xff) :: (s.mHighestSeqNumber &&& 0xff) ::
      0 :: 0 :: 0 :: 0 ::
      ((rrLSR s >>> 24) % 256) :: ((rrLSR s >>> 16) &&& 0xff) ::
      ((rrLSR s >>> 8) &&& 0xff) :: (rrLSR s &&& 0xff) ::
      ((rrDLSR s dlsr >>> 24) % 256) :: ((rrDLSR s dlsr >>> 16) &&& 0xff) ::
      ((rrDLSR s dlsr >>> 8) &&& 0xff) :: (rrDLSR s dlsr &&& 0xff) :: [] := by
  unfold addReceiverReport
  rw [if_neg (by omega)]
  rfl

/-- Position 12 of an explicit 32-element list. -/
lemma list32_getD_12 (b0 b1 b2 b3 b4 b5 b6 b7 b8 b9 b10 b11 b12 b13 b14 b15
    b16 b17 b18 b19 b20 b21 b22 b23 b24 b25 b26 b27 b28 b29 b30 b31 : ℕ) :
    (b0 :: b1 :: b2 :: b3 :: b4 :: b5 :: b6 :: b7 :: b8 :: b9 :: b10 :: b11 ::
      b12 :: b13 :: b14 :: b15 :: b16 :: b17 :: b18 :: b19 :: b20 :: b21 ::
      b22 :: b23 :: b24 :: b25 :: b26 :: b27 :: b28 :: b29 :: b30 :: b31 ::
      ([] : List ℕ)).getD 12 0 = b12 := rfl

/-- Position 13 of an explicit 32-element list. -/
lemma list32_getD_13 (b0 b1 b2 b3 b4 b5 b6 b7 b8 b9 b10 b11 b12 b13 b14 b15
    b16 b17 b18 b19 b20 b21 b22 b23 b24 b25 b26 b27 b28 b29 b30 b31 : ℕ) :
    (b0 :: b1 :: b2 :: b3 :: b4 :: b5 :: b6 :: b7 :: b8 :: b9 :: b10 :: b11 ::
      b12 :: b13 :: b14 :: b15 :: b16 :: b17 :: b18 :: b19 :: b20 :: b21 ::
      b22 :: b23 :: b24 :: b25 :: b26 :: b27 :: b28 :: b29 :: b30 :: b31 ::
      ([] : List ℕ)).getD 13 0 = b13 := rfl

/-- Position 14 of an explicit 32-element list. -/
lemma list32_getD_14 (b0 b1 b2 b3 b4 b5 b6 b7 b8 b9 b10 b11 b12 b13 b14 b15
    b16 b17 b18 b19 b20 b21 b22 b23 b24 b25 b26 b27 b28 b29 b30 b31 : ℕ) :
    (b0 :: b1 :: b2 :: b3 :: b4 :: b5 :: b6 :: b7 :: b8 :: b9 :: b10 :: b11 ::
      b12 :: b13 :: b14 :: b15 :: b16 :: b17 :: b18 :: b19 :: b20 :: b21 ::
      b22 :: b23 :: b24 :: b25 :: b26 :: b27 :: b28 :: b29 :: b30 :: b31 ::
      ([] : List ℕ)).getD 14 0 = b14 := rfl

/-- Position 15 of an explicit 32-element list. -/
lemma list32_getD_15 (b0 b1 b2 b3 b4 b5 b6 b7 b8 b9 b10 b11 b12 b13 b14 b15
    b16 b17 b18 b19 b20 b21 b22 b23 b24 b25 b26 b27 b28 b29 b30 b31 : ℕ) :
    (b0 :: b1 :: b2 :: b3 :: b4 :: b5 :: b6 :: b7 :: b8 :: b9 :: b10 :: b11 ::
      b12 :: b13 :: b14 :: b15 :: b16 :: b17 :: b18 :: b19 :: b20 :: b21 ::
      b22 :: b23 :: b24 :: b25 :: b26 :: b27 :: b28 :: b29 :: b30 :: b31 ::
      ([] : List ℕ)).getD 15 0 = b15 := rfl

set_option maxRecDepth 4000 in
/-- C5 (amended).  `addReceiverReport` computes the fraction-lost byte as
`((interval_lost << 8) / interval_expected) % 256` when
`interval_expected > 0` and `interval_lost > 0` (the `% 256` being the
`uint8_t` truncation that the claim as stated omits), else 0; the
cumulative-lost field is `(int32_t) expected - num_buffers_received`
(signed, unclamped), recovered exactly by a signed 24-bit decode whenever
it lies in the representable 24-bit range; and for a first report with
`base_seq_number = 100`, `highest_seq_number = 109`,
`num_buffers_received = 8`, the encoded 32-byte block carries
fraction-lost 51 (in particular nonzero) and cumulative-lost 2. -/
theorem c5_rr_loss_fields_amended (kSID : ℕ) (qual : QualCurve)
    (s : ARTPSource) (dlsr sz cap : ℕ) (hcap : sz + 32 ≤ cap) :
    (decodeFractionLost (addReceiverReport kSID qual s dlsr sz cap).2
      = if 0 < rrIntervalExpected s ∧ 0 < rrIntervalLost s then
          ((rrIntervalLost s).toNat <<< 8) / (rrIntervalExpected s).toNat % 256
        else 0) ∧
    (-(2 ^ 23) ≤ rrCumulativeLost s → rrCumulativeLost s < 2 ^ 23 →
      decodeCumulativeLost (addReceiverReport kSID qual s dlsr sz cap).2
        = rrCumulativeLost s) ∧
    (decodeFractionLost (addReceiverReport 0 { update := fun t _ => t }
        { ARTPSource.construct 7 false true 0 with
            mBaseSeqNumber := 100, mHighestSeqNumber := 109,
            mNumBuffersReceived := 8 } 0 0 32).2 = 51 ∧
     decodeCumulativeLost (addReceiverReport 0 { update := fun t _ => t }
        { ARTPSource.construct 7 false true 0 with
            mBaseSeqNumber := 100, mHighestSeqNumber := 109,
            mNumBuffersReceived := 8 } 0 0 32).2 = 2) := by
  refine ⟨?_, ?_, by decide, by decide⟩
  · simp only [decodeFractionLost]
    rw [addReceiverReport_bytes kSID qual s dlsr sz cap hcap, list32_getD_12]
    unfold rrFractionByte
    rfl
  · intro hlo hhi
    simp only [decodeCumulativeLost]
    rw [addReceiverReport_bytes kSID qual s dlsr sz cap hcap, list32_getD_13,
      list32_getD_14, list32_getD_15]
    exact sbyte_decode (rrCumulativeLost s) hlo hhi

/-- Witness for C5: at the concrete first-report state (base 100, highest
109, 8 received) the amended theorem applies with the capacity and range
hypotheses discharged, and the signed 24-bit decode of the cumulative-lost
field yields exactly the cumulative loss, which is 2. -/
theorem c5_witness :
    decodeCumulativeLost (addReceiverReport 0 { update := fun t _ => t }
        { ARTPSource.construct 7 false true 0 with
            mBaseSeqNumber := 100, mHighestSeqNumber := 109,
            mNumBuffersReceived := 8 } 0 0 32).2
      = rrCumulativeLost { ARTPSource.construct 7 false true 0 with
            mBaseSeqNumber := 100, mHighestSeqNumber := 109,
            mNumBuffersReceived := 8 } ∧
    rrCumulativeLost { ARTPSource.construct 7 false true 0 with
        mBaseSeqNumber := 100, mHighestSeqNumber := 109,
        mNumBuffersReceived := 8 } = 2 :=
  ⟨(c5_rr_loss_fields_amended 0 { update := fun t _ => t }
      { ARTPSource.construct 7 false true 0 with
          mBaseSeqNumber := 100, mHighestSeqNumber := 109,
          mNumBuffersReceived := 8 } 0 0 32 (by norm_num)).2.1
    (by decide) (by decide), by decide⟩

/-! TMMBR encoding (C8). -/

lemma shift_and_one (tb e : ℕ) : (tb >>> e) &&& 1 = tb / 2 ^ e % 2 := by
  have h1 : (1 : ℕ) = 2 ^ 1 - 1 := by norm_num
  rw [h1, and_ones, Nat.shiftRight_eq_div_pow, pow_one]

lemma testBit_iff (tb e : ℕ) : tb.testBit e = true ↔ (tb >>> e) &&& 1 ≠ 0 := by
  rw [Nat.testBit_to_div_mod, shift_and_one, decide_eq_true_eq]
  have := Nat.mod_lt (tb / 2 ^ e) (show 0 < 2 from by norm_num)
  omega

/-- The loop scan never runs past its budget. -/
lemma tmmbrExpAux_le (tb : ℕ) : ∀ (fuel e : ℕ), tmmbrExpAux tb fuel e ≤ e + fuel := by
  intro fuel
  induction fuel with
  | zero => intro e; simp [tmmbrExpAux]
  | succ fuel ih =>
    intro e
    simp only [tmmbrExpAux]
    split_ifs
    · omega
    · have := ih (e + 1)
      omega

/-- If some bit is set within the scanned range, the loop stops at the
lowest set bit at or above the start position. -/
lemma tmmbrExpAux_min (tb : ℕ) : ∀ (fuel e : ℕ),
    (∃ k, e ≤ k ∧ k < e + fuel ∧ tb.testBit k = true) →
    (tb.testBit (tmmbrExpAux tb fuel e) = true ∧
     e ≤ tmmbrExpAux tb fuel e ∧
     ∀ m, e ≤ m → m < tmmbrExpAux tb fuel e → tb.testBit m = false) := by
  intro fuel
  induction fuel with
  | zero =>
    intro e hex
    obtain ⟨k, hk1, hk2, _⟩ := hex
    omega
  | succ fuel ih =>
    intro e hex
    by_cases hb : (tb >>> e) &&& 1 ≠ 0
    · have hstep : tmmbrExpAux tb (fuel + 1) e = e := by
        simp only [tmmbrExpAux, if_pos hb]
      rw [hstep]
      exact ⟨(testBit_iff tb e).mpr hb, le_refl e,
        fun m h1 h2 => absurd h1 (by omega)⟩
    · have hstep : tmmbrExpAux tb (fuel + 1) e = tmmbrExpAux tb fuel (e + 1) := by
        simp only [tmmbrExpAux, if_neg hb]
      rw [hstep]
      have hbe : tb.testBit e = false := by
        rcases Bool.eq_false_or_eq_true (tb.testBit e) with h | h
        · exact absurd ((testBit_iff tb e).mp h) hb
        · exact h
      obtain ⟨k, hk1, hk2, hk3⟩ := hex
      have hk1' : e + 1 ≤ k := by
        rcases Nat.lt_or_ge e k with h | h
        · omega
        · have hke : k = e := by omega
          rw [hke, hbe] at hk3
          exact Bool.noConfusion hk3
      obtain ⟨r1, r2, r3⟩ := ih (e + 1) ⟨k, hk1', by omega, hk3⟩
      refine ⟨r1, by omega, fun m h1 h2 => ?_⟩
      rcases Nat.lt_or_ge m (e + 1) with h | h
      · have hme : m = e := by omega
        rw [hme]
        exact hbe
      · exact r3 m h h2

/-- A positive `int32` value at least 16 has a set bit in positions 4-31. -/
lemma exists_high_bit (tb : ℕ) (h16 : 16 ≤ tb) (h31 : tb < 2 ^ 31) :
    ∃ k, 4 ≤ k ∧ k < 32 ∧ tb.testBit k = true := by
  have hne : tb ≠ 0 := by omega
  have hle := Nat.log2_self_le hne
  have hlt := Nat.lt_log2_self (n := tb)
  refine ⟨Nat.log2 tb, ?_, ?_, ?_⟩
  · by_contra hc
    push_neg at hc
    have : 2 ^ (Nat.log2 tb + 1) ≤ 2 ^ 4 := Nat.pow_le_pow_right (by norm_num) (by omega)
    omega
  · by_contra hc
    push_neg at hc
    have h1 : (2 : ℕ) ^ 32 ≤ 2 ^ Nat.log2 tb := Nat.pow_le_pow_right (by norm_num) (by omega)
    have h2 : (2 : ℕ) ^ 31 < 2 ^ 32 := by norm_num
    omega
  · rw [Nat.testBit_to_div_mod, decide_eq_true_eq]
    have hpos : 0 < 2 ^ Nat.log2 tb := Nat.pos_pow_of_pos _ (by norm_num)
    have h1 : 1 ≤ tb / 2 ^ Nat.log2 tb := (Nat.one_le_div_iff hpos).mpr hle
    have h2 : tb / 2 ^ Nat.log2 tb < 2 := by
      rw [Nat.div_lt_iff_lt_mul hpos]
      rw [pow_succ] at hlt
      omega
    omega

/-- Bits 4 .. exp-1 clear means reducing modulo `2 ^ exp` is the same as
reducing modulo `2 ^ 4`. -/
lemma mod_pow_eq_of_bits_false (tb exp : ℕ) (h4 : 4 ≤ exp)
    (hz : ∀ m, 4 ≤ m → m < exp → tb.testBit m = false) :
    tb % 2 ^ exp = tb % 2 ^ 4 := by
  apply Nat.eq_of_testBit_eq
  intro i
  rw [Nat.testBit_mod_two_pow, Nat.testBit_mod_two_pow]
  rcases Nat.lt_or_ge i 4 with h | h
  · simp [show i < exp from by omega, h]
  · rcases Nat.lt_or_ge i exp with h2 | h2
    · simp [h2, show ¬ i < 4 from by omega, hz i h h2]
    · simp [show ¬ i < exp from by omega, show ¬ i < 4 from by omega]

set_option maxRecDepth 16000 in
/-- Byte layout of the 20-byte TMMBR block appended by `addTMMBR` when its
gates pass. -/
lemma addTMMBR_bytes (kSID : ℕ) (s : ARTPSource) (sz cap : ℕ)
    (hcap : sz + 32 ≤ cap) (hpos : 0 < s.mTargetBitrate) :
    (addTMMBR kSID s sz cap).2 =
      0x83 :: 205 :: 0 :: 4 ::
      ((kSID >>> 24) % 256) :: ((kSID >>> 16) &&& 0xff) ::
      ((kSID >>> 8) &&& 0xff) :: (kSID &&& 0xff) ::
      0 :: 0 :: 0 :: 0 ::
      ((s.mID >>> 24) % 256) :: ((s.mID >>> 16) &&& 0xff) ::
      ((s.mID >>> 8) &&& 0xff) :: (s.mID &&& 0xff) ::
      (((tmmbrExp s.mTargetBitrate.toNat <<< 2) &&& 0xfc) |||
        (((s.mTargetBitrate.toNat >>> tmmbrExp s.mTargetBitrate.toNat) &&& 0x18000) >>> 15)) ::
      (((s.mTargetBitrate.toNat >>> tmmbrExp s.mTargetBitrate.toNat) &&& 0x07f80) >>> 7) ::
      (((s.mTargetBitrate.toNat >>> tmmbrExp s.mTargetBitrate.toNat) &&& 0x0007f) <<< 1) ::
      40 :: [] := by
  unfold addTMMBR
  rw [if_neg (by omega), if_neg (by omega)]
  rfl

/-- Position 16 of an explicit 20-element list. -/
lemma list20_getD_16 (b0 b1 b2 b3 b4 b5 b6 b7 b8 b9 b10 b11 b12 b13 b14 b15
    b16 b17 b18 b19 : ℕ) :
    (b0 :: b1 :: b2 :: b3 :: b4 :: b5 :: b6 :: b7 :: b8 :: b9 :: b10 :: b11 ::
      b12 :: b13 :: b14 :: b15 :: b16 :: b17 :: b18 :: b19 ::
      ([] : List ℕ)).getD 16 0 = b16 := rfl

/-- Position 17 of an explicit 20-element list. -/
lemma list20_getD_17 (b0 b1 b2 b3 b4 b5 b6 b7 b8 b9 b10 b11 b12 b13 b14 b15
    b16 b17 b18 b19 : ℕ) :
    (b0 :: b1 :: b2 :: b3 :: b4 :: b5 :: b6 :: b7 :: b8 :: b9 :: b10 :: b11 ::
      b12 :: b13 :: b14 :: b15 :: b16 :: b17 :: b18 :: b19 ::
      ([] : List ℕ)).getD 17 0 = b17 := rfl

/-- Position 18 of an explicit 20-element list. -/
lemma list20_getD_18 (b0 b1 b2 b3 b4 b5 b6 b7 b8 b9 b10 b11 b12 b13 b14 b15
    b16 b17 b18 b19 : ℕ) :
    (b0 :: b1 :: b2 :: b3 :: b4 :: b5 :: b6 :: b7 :: b8 :: b9 :: b10 :: b11 ::
      b12 :: b13 :: b14 :: b15 :: b16 :: b17 :: b18 :: b19 ::
      ([] : List ℕ)).getD 18 0 = b18 := rfl

/-- Position 19 of an explicit 20-element list. -/
lemma list20_getD_19 (b0 b1 b2 b3 b4 b5 b6 b7 b8 b9 b10 b11 b12 b13 b14 b15
    b16 b17 b18 b19 : ℕ) :
    (b0 :: b1 :: b2 :: b3 :: b4 :: b5 :: b6 :: b7 :: b8 :: b9 :: b10 :: b11 ::
      b12 :: b13 :: b14 :: b15 :: b16 :: b17 :: b18 :: b19 ::
      ([] : List ℕ)).getD 19 0 = b19 := rfl

/-- `tmmbrExpAux_min` restated through the `tmmbrExp` wrapper. -/
lemma tmmbrExp_min (tb : ℕ) (hex : ∃ k, 4 ≤ k ∧ k < 32 ∧ tb.testBit k = true) :
    tb.testBit (tmmbrExp tb) = true ∧ 4 ≤ tmmbrExp tb ∧
    ∀ m, 4 ≤ m → m < tmmbrExp tb → tb.testBit m = false := by
  obtain ⟨k, h1, h2, h3⟩ := hex
  exact tmmbrExpAux_min tb 28 4 ⟨k, h1, by omega, h3⟩

/-- Byte 16 of the TMMBR block, as 6-bit exponent times 4 plus the top two
mantissa bits. -/
lemma tmmbr_pack16 (ex m : ℕ) (hex : ex < 64) (hm : m < 2 ^ 17) :
    ((ex <<< 2) &&& 0xfc) ||| ((m &&& 0x18000) >>> 15) = ex * 4 + m / 2 ^ 15 := by
  have e1 : (ex <<< 2) &&& 0xfc = ex * 2 ^ 2 := by
    rw [Nat.shiftLeft_eq,
      show (0xfc : ℕ) = (2 ^ 6 - 1) <<< 2 from by norm_num [Nat.shiftLeft_eq],
      and_mask]
    omega
  have e2 : (m &&& 0x18000) >>> 15 = m / 2 ^ 15 := by
    rw [show (0x18000 : ℕ) = (2 ^ 2 - 1) <<< 15 from by norm_num [Nat.shiftLeft_eq],
      and_mask, Nat.shiftRight_eq_div_pow]
    omega
  rw [e1, e2, Nat.lor_comm, lor_mul_pow _ _ _ (by omega)]
  norm_num

/-- Byte 17 of the TMMBR block, as the middle 8 mantissa bits. -/
lemma tmmbr_pack17 (m : ℕ) : (m &&& 0x07f80) >>> 7 = m / 2 ^ 7 % 2 ^ 8 := by
  rw [show (0x07f80 : ℕ) = (2 ^ 8 - 1) <<< 7 from by norm_num [Nat.shiftLeft_eq],
    and_mask, Nat.shiftRight_eq_div_pow]
  omega

/-- Byte 18 of the TMMBR block, as the bottom 7 mantissa bits shifted up. -/
lemma tmmbr_pack18 (m : ℕ) : (m &&& 0x0007f) <<< 1 = m % 2 ^ 7 * 2 := by
  rw [show (0x0007f : ℕ) = 2 ^ 7 - 1 from by norm_num, and_ones, Nat.shiftLeft_eq]

/-- `decodeTMMBR` applied to an explicit 20-element list. -/
lemma list20_decodeTMMBR (b0 b1 b2 b3 b4 b5 b6 b7 b8 b9 b10 b11 b12 b13 b14
    b15 b16 b17 b18 b19 : ℕ) :
    decodeTMMBR (b0 :: b1 :: b2 :: b3 :: b4 :: b5 :: b6 :: b7 :: b8 :: b9 ::
      b10 :: b11 :: b12 :: b13 :: b14 :: b15 :: b16 :: b17 :: b18 :: b19 ::
      ([] : List ℕ)) =
    (b16 >>> 2, ((b16 &&& 0x3) <<< 15) ||| ((b17 <<< 7) ||| (b18 >>> 1))) := rfl

/-- Inverting the three packed bytes recovers exponent and mantissa. -/
lemma tmmbr_unpack (ex m : ℕ) (hm : m < 2 ^ 17) :
    ((ex * 4 + m / 2 ^ 15) >>> 2,
     (((ex * 4 + m / 2 ^ 15) &&& 0x3) <<< 15) |||
       (((m / 2 ^ 7 % 2 ^ 8) <<< 7) ||| ((m % 2 ^ 7 * 2) >>> 1))) = (ex, m) := by
  have d1 : (ex * 4 + m / 2 ^ 15) >>> 2 = ex := by
    rw [Nat.shiftRight_eq_div_pow]
    omega
  have d2 : (ex * 4 + m / 2 ^ 15) &&& 0x3 = m / 2 ^ 15 := by
    rw [show (0x3 : ℕ) = 2 ^ 2 - 1 from by norm_num, and_ones]
    omega
  have d3 : (m % 2 ^ 7 * 2) >>> 1 = m % 2 ^ 7 := by
    rw [Nat.shiftRight_eq_div_pow]
    omega
  rw [d1, d2, d3, Nat.shiftLeft_eq, Nat.shiftLeft_eq]
  have d4 : m / 2 ^ 7 % 2 ^ 8 * 2 ^ 7 ||| m % 2 ^ 7 = m % 2 ^ 15 := by
    rw [Nat.lor_comm, lor_mul_pow _ _ _ (by omega)]
    omega
  rw [d4]
  have d5 : m / 2 ^ 15 * 2 ^ 15 ||| m % 2 ^ 15 = m := by
    rw [Nat.lor_comm, lor_mul_pow _ _ _ (by omega)]
    omega
  rw [d5]

/-- C8.  When `addTMMBR` emits (positive target bitrate, enough capacity;
stated for bitrates of at least 16 — below 16 the C loop falls off the end
and the subsequent shift is undefined behaviour — and with the mantissa in
its 17-bit field): the exponent is the smallest value at least 4 whose bit
of the target bitrate is set; byte 16 packs the exponent (times 4) with the
top 2 mantissa bits, byte 17 the next 8 mantissa bits, byte 18 the bottom 7
mantissa bits shifted left one, byte 19 the constant 40; and decoding
recovers exactly (exponent, mantissa) with
`mantissa <<< exponent = bitrate - bitrate % 16` (the bitrate rounded down
to a multiple of 16, i.e. `bitrate & ~0xF`). -/
theorem c8_tmmbr_encoding (kSID : ℕ) (s : ARTPSource) (sz cap : ℕ)
    (hcap : sz + 32 ≤ cap) (htb : 16 ≤ s.mTargetBitrate)
    (htb31 : s.mTargetBitrate < 2 ^ 31)
    (hman : s.mTargetBitrate.toNat >>> tmmbrExp s.mTargetBitrate.toNat < 2 ^ 17) :
    (4 ≤ tmmbrExp s.mTargetBitrate.toNat ∧
     s.mTargetBitrate.toNat.testBit (tmmbrExp s.mTargetBitrate.toNat) = true ∧
     (∀ m, 4 ≤ m → m < tmmbrExp s.mTargetBitrate.toNat →
        s.mTargetBitrate.toNat.testBit m = false)) ∧
    ((addTMMBR kSID s sz cap).2.getD 16 0
        = tmmbrExp s.mTargetBitrate.toNat * 4 +
          (s.mTargetBitrate.toNat >>> tmmbrExp s.mTargetBitrate.toNat) / 2 ^ 15 ∧
     (addTMMBR kSID s sz cap).2.getD 17 0
        = (s.mTargetBitrate.toNat >>> tmmbrExp s.mTargetBitrate.toNat) / 2 ^ 7 % 2 ^ 8 ∧
     (addTMMBR kSID s sz cap).2.getD 18 0
        = (s.mTargetBitrate.toNat >>> tmmbrExp s.mTargetBitrate.toNat) % 2 ^ 7 * 2 ∧
     (addTMMBR kSID s sz cap).2.getD 19 0 = 40) ∧
    (decodeTMMBR (addTMMBR kSID s sz cap).2
        = (tmmbrExp s.mTargetBitrate.toNat,
           s.mTargetBitrate.toNat >>> tmmbrExp s.mTargetBitrate.toNat) ∧
     (s.mTargetBitrate.toNat >>> tmmbrExp s.mTargetBitrate.toNat)
         <<< tmmbrExp s.mTargetBitrate.toNat
       = s.mTargetBitrate.toNat - s.mTargetBitrate.toNat % 16) := by
  have htb' : 16 ≤ s.mTargetBitrate.toNat := by omega
  have htb31' : s.mTargetBitrate.toNat < 2 ^ 31 := by omega
  obtain ⟨r1, r2, r3⟩ := tmmbrExp_min s.mTargetBitrate.toNat
    (exists_high_bit s.mTargetBitrate.toNat htb' htb31')
  have hexp_le : tmmbrExp s.mTargetBitrate.toNat ≤ 32 := tmmbrExpAux_le _ 28 4
  refine ⟨⟨r2, r1, r3⟩, ⟨?_, ?_, ?_, ?_⟩, ⟨?_, ?_⟩⟩
  · rw [addTMMBR_bytes kSID s sz cap hcap (by omega), list20_getD_16]
    exact tmmbr_pack16 _ _ (by omega) hman
  · rw [addTMMBR_bytes kSID s sz cap hcap (by omega), list20_getD_17]
    exact tmmbr_pack17 _
  · rw [addTMMBR_bytes kSID s sz cap hcap (by omega), list20_getD_18]
    exact tmmbr_pack18 _
  · rw [addTMMBR_bytes kSID s sz cap hcap (by omega), list20_getD_19]
  · rw [addTMMBR_bytes kSID s sz cap hcap (by omega), list20_decodeTMMBR,
      tmmbr_pack16 _ _ (by omega) hman, tmmbr_pack17, tmmbr_pack18]
    exact tmmbr_unpack _ _ hman
  · rw [Nat.shiftLeft_eq, Nat.shiftRight_eq_div_pow]
    have hmod := mod_pow_eq_of_bits_false s.mTargetBitrate.toNat
      (tmmbrExp s.mTargetBitrate.toNat) r2 r3
    have hdm := Nat.div_add_mod s.mTargetBitrate.toNat (2 ^ tmmbrExp s.mTargetBitrate.toNat)
    rw [mul_comm] at hdm
    rw [hmod, show (2 : ℕ) ^ 4 = 16 from by norm_num] at hdm
    exact Nat.eq_sub_of_add_eq hdm

/-- Witness for C8: target bitrate 256000 encodes with exponent 11 and
mantissa 125, and the decoded pair reconstructs `125 <<< 11 = 256000`,
which is `256000 - 256000 % 16`. -/
theorem c8_witness :
    decodeTMMBR (addTMMBR 0 { ARTPSource.construct 7 false true 0 with
        mTargetBitrate := 256000 } 0 32).2 = (11, 125) ∧
    (125 : ℕ) <<< 11 = 256000 - 256000 % 16 := by
  have h := c8_tmmbr_encoding 0 { ARTPSource.construct 7 false true 0 with
      mTargetBitrate := 256000 } 0 32 (by norm_num) (by norm_num) (by norm_num)
    (by decide)
  constructor
  · rw [h.2.2.1]
    decide
  · decide

/-! FIR rate limiting (C6). -/

/-- `addFIR` emits iff FIR requests are enabled, the 5-second gate passes,
and 20 spare bytes fit. -/
lemma addFIR_emit (kSID : ℕ) (s : ARTPSource) (nowUs : ℤ) (sz cap : ℕ) :
    (addFIR kSID s nowUs sz cap).2 ≠ [] ↔
      (s.mIssueFIRRequests = true ∧
       ¬(0 ≤ s.mLastFIRRequestUs ∧ nowUs < s.mLastFIRRequestUs + 5000000) ∧
       sz + 20 ≤ cap) := by
  constructor
  · intro h
    unfold addFIR at h
    split_ifs at h with h1 h2 h3
    · exact absurd rfl h
    · exact absurd rfl h
    · exact ⟨by simpa using h1, h2, by omega⟩
    · exact absurd rfl h
  · rintro ⟨hI, hg, hc⟩
    unfold addFIR
    rw [if_neg (by simp [hI]), if_neg hg]
    simp only [if_neg (show ¬ sz + 20 > cap from by omega)]
    simp

/-- When `addFIR` emits, the rate-limit timestamp was set to the call time. -/
lemma addFIR_emit_state (kSID : ℕ) (s : ARTPSource) (nowUs : ℤ) (sz cap : ℕ)
    (h : (addFIR kSID s nowUs sz cap).2 ≠ []) :
    (addFIR kSID s nowUs sz cap).1.mLastFIRRequestUs = nowUs := by
  unfold addFIR at h ⊢
  split_ifs at h ⊢ with h1 h2 h3
  · exact absurd rfl h
  · rfl
  · rfl
  · exact absurd rfl h

/-- Once nonnegative, `mLastFIRRequestUs` never decreases under `addFIR`. -/
lemma addFIR_lastFIR_mono (kSID : ℕ) (s : ARTPSource) (nowUs : ℤ) (sz cap : ℕ)
    (hL : 0 ≤ s.mLastFIRRequestUs) :
    s.mLastFIRRequestUs ≤ (addFIR kSID s nowUs sz cap).1.mLastFIRRequestUs ∧
    0 ≤ (addFIR kSID s nowUs sz cap).1.mLastFIRRequestUs := by
  unfold addFIR
  split_ifs with h1 h2 h3
  · exact ⟨le_refl _, hL⟩
  · rcases not_and_or.mp h2 with h | h <;>
      exact ⟨show s.mLastFIRRequestUs ≤ nowUs from by omega,
             show (0 : ℤ) ≤ nowUs from by omega⟩
  · rcases not_and_or.mp h2 with h | h <;>
      exact ⟨show s.mLastFIRRequestUs ≤ nowUs from by omega,
             show (0 : ℤ) ≤ nowUs from by omega⟩
  · exact ⟨le_refl _, hL⟩

/-- From a state whose rate-limit timestamp is already nonnegative, any
emitted FIR call is at least 5 000 000 us after that timestamp. -/
lemma runFIR_sep (kSID : ℕ) (calls : List (ℤ × ℕ × ℕ)) :
    ∀ (s : ARTPSource), 0 ≤ s.mLastFIRRequestUs →
    ∀ j, (runFIR kSID s calls).getD j [] ≠ [] →
      s.mLastFIRRequestUs + 5000000 ≤ (calls.getD j (0, 0, 0)).1 := by
  induction calls with
  | nil =>
    intro s hL j hj
    simp [runFIR] at hj
  | cons c cs ih =>
    intro s hL j hj
    cases j with
    | zero =>
      simp only [runFIR, List.getD_cons_zero] at hj ⊢
      obtain ⟨-, hg, -⟩ := (addFIR_emit kSID s c.1 c.2.1 c.2.2).mp hj
      rcases not_and_or.mp hg with h | h <;> omega
    | succ j =>
      simp only [runFIR, List.getD_cons_succ] at hj ⊢
      have hmono := addFIR_lastFIR_mono kSID s c.1 c.2.1 c.2.2 hL
      have := ih (addFIR kSID s c.1 c.2.1 c.2.2).1 hmono.2 j hj
      omega

/-- Any two emitted calls of one call sequence are at least 5 000 000 us
apart, provided the clock readings are nonnegative. -/
lemma runFIR_pairwise (kSID : ℕ) (calls : List (ℤ × ℕ × ℕ)) :
    ∀ (s : ARTPSource), (∀ c ∈ calls, (0 : ℤ) ≤ c.1) →
    ∀ i j, i < j →
      (runFIR kSID s calls).getD i [] ≠ [] →
      (runFIR kSID s calls).getD j [] ≠ [] →
      (calls.getD i (0, 0, 0)).1 + 5000000 ≤ (calls.getD j (0, 0, 0)).1 := by
  induction calls with
  | nil =>
    intro s ht i j hij hi hj
    simp [runFIR] at hi
  | cons c cs ih =>
    intro s ht i j hij hi hj
    obtain ⟨j', rfl⟩ : ∃ j', j = j' + 1 := ⟨j - 1, by omega⟩
    cases i with
    | zero =>
      simp only [runFIR, List.getD_cons_zero, List.getD_cons_succ] at hi hj ⊢
      have hemit := addFIR_emit_state kSID s c.1 c.2.1 c.2.2 hi
      have h0 : (0 : ℤ) ≤ c.1 := ht c (by simp)
      have hL : 0 ≤ (addFIR kSID s c.1 c.2.1 c.2.2).1.mLastFIRRequestUs := by
        rw [hemit]
        exact h0
      have hsep := runFIR_sep kSID cs (addFIR kSID s c.1 c.2.1 c.2.2).1 hL j' hj
      rw [hemit] at hsep
      omega
    | succ i =>
      simp only [runFIR, List.getD_cons_succ] at hi hj ⊢
      exact ih (addFIR kSID s c.1 c.2.1 c.2.2).1
        (fun d hd => ht d (List.mem_cons_of_mem c hd)) i j' (by omega) hi hj

/-- With FIR requests disabled, no call of a sequence emits anything. -/
lemma runFIR_noissue (kSID : ℕ) (calls : List (ℤ × ℕ × ℕ)) :
    ∀ (s : ARTPSource), s.mIssueFIRRequests = false →
    ∀ bs ∈ runFIR kSID s calls, bs = [] := by
  induction calls with
  | nil =>
    intro s hI bs hbs
    simp [runFIR] at hbs
  | cons c cs ih =>
    intro s hI bs hbs
    have hfr : addFIR kSID s c.1 c.2.1 c.2.2 = (s, []) := by
      unfold addFIR
      rw [if_pos (by simp [hI])]
    simp only [runFIR, List.mem_cons] at hbs
    rw [hfr] at hbs
    rcases hbs with h | h
    · exact h
    · exact ih s hI bs h

/-- C6.  FIR rate limiting: over any sequence of `addFIR` calls with
plausible (nonnegative) clock readings, no two calls whose wall-clock times
differ by less than 5 000 000 microseconds can both emit a block, and when
`mIssueFIRRequests` is false no call ever emits anything. -/
theorem c6_fir_rate_limit (kSID : ℕ) (s : ARTPSource)
    (calls : List (ℤ × ℕ × ℕ)) (ht : ∀ c ∈ calls, (0 : ℤ) ≤ c.1) :
    (∀ i j, i < calls.length → j < calls.length → i ≠ j →
       |(calls.getD i (0, 0, 0)).1 - (calls.getD j (0, 0, 0)).1| < 5000000 →
       ¬((runFIR kSID s calls).getD i [] ≠ [] ∧
         (runFIR kSID s calls).getD j [] ≠ [])) ∧
    (s.mIssueFIRRequests = false → ∀ bs ∈ runFIR kSID s calls, bs = []) := by
  constructor
  · rintro i j hi hj hij habs ⟨hei, hej⟩
    rw [abs_lt] at habs
    rcases Nat.lt_or_ge i j with h | h
    · have := runFIR_pairwise kSID calls s ht i j h hei hej
      omega
    · have hji : j < i := by omega
      have := runFIR_pairwise kSID calls s ht j i hji hej hei
      omega
  · intro hI
    exact runFIR_noissue kSID calls s hI

/-- Witness for C6: calls at 0 us, 1 000 000 us and 6 000 000 us emit,
stay silent (1 000 000 < 5 000 000, blocked via the theorem), and emit
again; the emission pattern is checked concretely. -/
theorem c6_witness :
    (∀ c ∈ ([((0 : ℤ), (0 : ℕ), (100 : ℕ)), (1000000, 0, 100),
        (6000000, 0, 100)] : List (ℤ × ℕ × ℕ)), (0 : ℤ) ≤ c.1) ∧
    ¬((runFIR 7 (ARTPSource.construct 7 true true 0)
        [((0 : ℤ), (0 : ℕ), (100 : ℕ)), (1000000, 0, 100),
         (6000000, 0, 100)]).getD 0 [] ≠ [] ∧
      (runFIR 7 (ARTPSource.construct 7 true true 0)
        [((0 : ℤ), (0 : ℕ), (100 : ℕ)), (1000000, 0, 100),
         (6000000, 0, 100)]).getD 1 [] ≠ []) ∧
    (runFIR 7 (ARTPSource.construct 7 true true 0)
        [((0 : ℤ), (0 : ℕ), (100 : ℕ)), (1000000, 0, 100),
         (6000000, 0, 100)]).getD 0 [] ≠ [] ∧
    (runFIR 7 (ARTPSource.construct 7 true true 0)
        [((0 : ℤ), (0 : ℕ), (100 : ℕ)), (1000000, 0, 100),
         (6000000, 0, 100)]).getD 2 [] ≠ [] := by
  refine ⟨by decide, ?_, by decide, by decide⟩
  exact (c6_fir_rate_limit 7 (ARTPSource.construct 7 true true 0)
      [((0 : ℤ), (0 : ℕ), (100 : ℕ)), (1000000, 0, 100), (6000000, 0, 100)]
      (by decide)).1
    0 1 (by decide) (by decide) (by decide) (by decide)

end ARTPSpec
